import Mathlib

/-!
# WarPlane: flight-control logic of `AWarPlaneGamePawn`

A shallow embedding of `WarPlaneGamePawn.cpp` / `WarPlaneGamePawn.h`.

Modelling conventions
* `float` members and arguments are exact rationals (`ℚ`); the literals `0.1f`, `19.9f`,
  `1.1`, `0.02f` are the decimals `1/10`, `199/10`, `11/10`, `1/50`. Float operations are
  taken without rounding. A float operation returns its exact result whenever that result is
  itself a `float` value (`IsFloat32`), so the model and the code compute the same number
  wherever operands and results are `float` values; this covers every whole-number speed step
  below `2^24`. Where a result is not a `float` value the code rounds it and the model does
  not: stored continuous values (`EngineBoostTime`, angles) then differ by the rounding, and a
  fractional speed step may be converted to a different integer. Statements about fractional
  speed steps therefore carry the hypothesis that the step is exact (`BoostExact`,
  `SlowExact`).
* `CurrentForwardSpeed` is declared `int` in the header, so every assignment of a `float`
  expression to it goes through `truncQ` (C++ float-to-int conversion truncates toward zero).
  Values outside the range of `int` are not modelled.
* The pawn's members are the fields of `AWarPlaneGamePawn`; the two pieces of host state the
  handlers read and write (actor rotation, camera world rotation) and the state of the two
  timer handles are fields of the same record.
* Rotations are exact `FRotator` triples: the host's angle normalisation is not modelled.
* `Tick` returns the request it makes of the host (swept local move, local rotation delta);
  what the host does to the transform with it is a parameter.
-/

namespace WarPlane

/-- Conversion of a `float` value to `int`: truncation toward zero. -/
def truncQ (q : ℚ) : ℤ := if 0 ≤ q then ⌊q⌋ else ⌈q⌉

/-- The host's rotation triple, in degrees. -/
structure FRotator where
  Pitch : ℚ
  Yaw : ℚ
  Roll : ℚ
deriving DecidableEq

/-- Modelled from the spec: the host's timer state behind one `FTimerHandle` (section 6, a
scheduling facility for timers "with configurable period and repeat flag"): whether a timer is
pending on the handle, its period, its repeat flag and the time left until it next fires. -/
structure FTimerHandle where
  Armed : Bool
  Rate : ℚ
  Loop : Bool
  Remaining : ℚ
deriving DecidableEq

/-- Modelled from the spec: the host call
`GetWorldTimerManager().SetTimer(Handle, this, Callback, InRate, InbLoop)`. Whatever was pending
on the handle is replaced (section 5: a timer "is implicitly cancelled/replaced if rearmed
before expiry") by a timer with period `InRate` and repeat flag `InbLoop` that first fires
after `InRate` seconds. -/
def SetTimer (InRate : ℚ) (InbLoop : Bool) : FTimerHandle :=
  { Armed := true, Rate := InRate, Loop := InbLoop, Remaining := InRate }

/-- A handle on which `SetTimer` has never been called. -/
def FTimerHandle.Invalid : FTimerHandle :=
  { Armed := false, Rate := 0, Loop := false, Remaining := 0 }

/-- The members of `AWarPlaneGamePawn` (WarPlaneGamePawn.h), followed by the actor's rotation
(`GetActorRotation` / `SetActorRotation`) and the camera's world rotation
(`Camera->GetSocketRotation("None")` / `Camera->SetWorldRotation`). -/
structure AWarPlaneGamePawn where
  Acceleration : ℚ
  TurnSpeed : ℚ
  MaxSpeed : ℚ
  MinSpeed : ℚ
  CurrentForwardSpeed : ℤ
  CurrentYawSpeed : ℚ
  CurrentPitchSpeed : ℚ
  CurrentRollSpeed : ℚ
  ChangeValue : ℚ
  EngineBoostTime : ℚ
  EngineControl : Bool
  OverHeating : Bool
  Timer : FTimerHandle
  Timer2 : FTimerHandle
  PitchValue : ℚ
  YawValue : ℚ
  RollValue : ℚ
  ActorRotation : FRotator
  CameraRotation : FRotator
deriving DecidableEq

/-- The constructor `AWarPlaneGamePawn::AWarPlaneGamePawn()` (lines 43-57). Members it does not
assign start at zero (object memory is zero-filled); the spawn rotation of the actor and of the
camera come from the host. -/
def AWarPlaneGamePawn.ctor (Rotation CameraRotation : FRotator) : AWarPlaneGamePawn :=
  { ChangeValue := 40
    Acceleration := 500
    TurnSpeed := 50
    MaxSpeed := 24000
    MinSpeed := 6000
    CurrentForwardSpeed := truncQ 10000
    EngineBoostTime := 20
    EngineControl := false
    OverHeating := false
    PitchValue := 0
    YawValue := 0
    RollValue := 0
    CurrentYawSpeed := 0
    CurrentPitchSpeed := 0
    CurrentRollSpeed := 0
    Timer := FTimerHandle.Invalid
    Timer2 := FTimerHandle.Invalid
    ActorRotation := Rotation
    CameraRotation := CameraRotation }

/-- `AWarPlaneGamePawn::EngineBoostInput(float Val)` (lines 131-150). -/
def AWarPlaneGamePawn.EngineBoostInput (s : AWarPlaneGamePawn) (Val : ℚ) : AWarPlaneGamePawn :=
  if Val ≠ 0 ∧ s.EngineBoostTime > 1 ∧ s.OverHeating = false then
    if (s.CurrentForwardSpeed : ℚ) < s.MaxSpeed then
      { s with
        EngineControl := true
        CurrentForwardSpeed := truncQ (s.CurrentForwardSpeed + Val * s.ChangeValue) }
    else
      { s with
        EngineControl := true
        CurrentForwardSpeed := truncQ s.MaxSpeed }
  else
    if s.CurrentForwardSpeed > 10000 then
      { s with
        EngineControl := false
        CurrentForwardSpeed := truncQ (s.CurrentForwardSpeed - s.ChangeValue) }
    else
      { s with EngineControl := false }

/-- `AWarPlaneGamePawn::SlowDownInput(float Val)` (lines 152-169). -/
def AWarPlaneGamePawn.SlowDownInput (s : AWarPlaneGamePawn) (Val : ℚ) : AWarPlaneGamePawn :=
  if Val ≠ 0 then
    if (s.CurrentForwardSpeed : ℚ) > s.MinSpeed then
      { s with CurrentForwardSpeed := truncQ (s.CurrentForwardSpeed - Val * s.ChangeValue) }
    else
      { s with CurrentForwardSpeed := truncQ s.MinSpeed }
  else
    if s.CurrentForwardSpeed < 10000 then
      { s with CurrentForwardSpeed := truncQ (s.CurrentForwardSpeed + s.ChangeValue) }
    else
      s

/-- The locals of `RightRotationInput` together with the pawn they act on. -/
structure TurnFrame where
  Pawn : AWarPlaneGamePawn
  NewRotation : FRotator
  NewCameraRotation : FRotator

/-- Lines 175-185: the block `if(Val == 1)`. -/
def TurnFrame.right (f : TurnFrame) (Val : ℚ) : TurnFrame :=
  if Val = 1 then
    if f.NewRotation.Roll ≤ 80 then
      let r1 : FRotator := { f.NewRotation with Yaw := f.NewRotation.Yaw + Val / 50 }
      let r2 : FRotator := { r1 with Roll := r1.Roll + Val }
      let c : FRotator := { f.NewCameraRotation with Roll := 0 }
      { Pawn := { f.Pawn with ActorRotation := r2, CameraRotation := c }
        NewRotation := r2
        NewCameraRotation := c }
    else f
  else f

/-- Lines 187-197: the block `if(Val == -1)`. -/
def TurnFrame.left (f : TurnFrame) (Val : ℚ) : TurnFrame :=
  if Val = -1 then
    if f.NewRotation.Roll ≥ -80 then
      let r1 : FRotator := { f.NewRotation with Yaw := f.NewRotation.Yaw + Val / 50 }
      let r2 : FRotator := { r1 with Roll := r1.Roll + Val }
      let c : FRotator := { f.NewCameraRotation with Roll := 0 }
      { Pawn := { f.Pawn with ActorRotation := r2, CameraRotation := c }
        NewRotation := r2
        NewCameraRotation := c }
    else f
  else f

/-- Lines 200-208: the first correction of the block `if(Val == 0)`. -/
def TurnFrame.levelDown (f : TurnFrame) : TurnFrame :=
  if f.NewRotation.Roll > 1 then
    let r : FRotator := { f.NewRotation with Roll := f.NewRotation.Roll - 1 }
    let c1 : FRotator := { f.NewCameraRotation with Roll := 0 }
    let c2 : FRotator := { c1 with Yaw := c1.Yaw + 1 / 50 }
    { Pawn := { f.Pawn with ActorRotation := r, CameraRotation := c2 }
      NewRotation := r
      NewCameraRotation := c2 }
  else f

/-- Lines 209-217: the second correction of the block `if(Val == 0)`, run on the locals the
first one left. -/
def TurnFrame.levelUp (f : TurnFrame) : TurnFrame :=
  if f.NewRotation.Roll < -1 then
    let r : FRotator := { f.NewRotation with Roll := f.NewRotation.Roll + 1 }
    let c1 : FRotator := { f.NewCameraRotation with Roll := 0 }
    let c2 : FRotator := { c1 with Yaw := c1.Yaw - 1 / 50 }
    { Pawn := { f.Pawn with ActorRotation := r, CameraRotation := c2 }
      NewRotation := r
      NewCameraRotation := c2 }
  else f

/-- Lines 198-219: the block `if(Val == 0)`. -/
def TurnFrame.level (f : TurnFrame) (Val : ℚ) : TurnFrame :=
  if Val = 0 then f.levelDown.levelUp else f

/-- `AWarPlaneGamePawn::RightRotationInput(float Val)` (lines 171-220). The three `if` blocks
run one after the other on the same locals. `SetActorRotation` also carries the attached
camera along, but every branch that calls it then calls `Camera->SetWorldRotation` with the
rotation read at entry, so the camera's final world rotation is the one written here. The
on-screen debug messages are not part of the state. -/
def AWarPlaneGamePawn.RightRotationInput (s : AWarPlaneGamePawn) (Val : ℚ) :
    AWarPlaneGamePawn :=
  let f0 : TurnFrame :=
    { Pawn := s, NewRotation := s.ActorRotation, NewCameraRotation := s.CameraRotation }
  (((f0.right Val).left Val).level Val).Pawn

/-- `AWarPlaneGamePawn::EngineBoostTimer()` (lines 222-241). -/
def AWarPlaneGamePawn.EngineBoostTimer (s : AWarPlaneGamePawn) : AWarPlaneGamePawn :=
  let s1 : AWarPlaneGamePawn :=
    if s.EngineBoostTime ≤ 199 / 10 ∧ s.EngineControl = false then
      { s with EngineBoostTime := s.EngineBoostTime + 1 / 10 }
    else s
  let s2 : AWarPlaneGamePawn :=
    if s1.EngineBoostTime ≥ 1 ∧ s1.EngineControl = true then
      let t : AWarPlaneGamePawn := { s1 with EngineBoostTime := s1.EngineBoostTime - 1 / 10 }
      if t.EngineBoostTime ≤ 11 / 10 then
        { t with OverHeating := true, Timer2 := SetTimer 19 true }
      else t
    else s1
  { s2 with Timer := SetTimer (1 / 10) true }

/-- `AWarPlaneGamePawn::EngineOverHeat()` (lines 243-246). -/
def AWarPlaneGamePawn.EngineOverHeat (s : AWarPlaneGamePawn) : AWarPlaneGamePawn :=
  { s with OverHeating := false }

/-- `AWarPlaneGamePawn::BeginPlay()` (lines 93-98). -/
def AWarPlaneGamePawn.BeginPlay (s : AWarPlaneGamePawn) : AWarPlaneGamePawn :=
  s.EngineBoostTimer

/-- A level rotation, used for concrete pawns. -/
def FRotator.Zero : FRotator := { Pitch := 0, Yaw := 0, Roll := 0 }

/-- The pawn as the constructor leaves it, spawned level. -/
def spawned : AWarPlaneGamePawn := AWarPlaneGamePawn.ctor FRotator.Zero FRotator.Zero

/-- Modelled from the spec: the host's scheduling facility (section 6, "recurring/one-shot
timers with configurable period and repeat flag"), which is not part of this repository. It
gives what `dt` seconds do to one handle and how many times the handle's callback is invoked
in them. A pending timer is due once its remaining time has elapsed; a repeating timer is then
invoked once per full period contained in the overrun and stays pending, a one-shot timer is
invoked once and cleared. -/
def FTimerHandle.Elapse (h : FTimerHandle) (dt : ℚ) : FTimerHandle × ℕ :=
  if h.Armed = true ∧ h.Remaining ≤ dt then
    if h.Loop = true then
      let n : ℕ := (⌊(dt - h.Remaining) / h.Rate⌋).toNat + 1
      ({ h with Remaining := h.Remaining + n * h.Rate - dt }, n)
    else
      ({ h with Armed := false }, 1)
  else if h.Armed = true then
    ({ h with Remaining := h.Remaining - dt }, 0)
  else
    (h, 0)

/-- The cooldown handle `Timer2` over `dt` seconds: the host invokes its callback
`EngineOverHeat` as often as `FTimerHandle.Elapse` says. The second component is the number
of invocations. -/
def AWarPlaneGamePawn.CooldownElapse (s : AWarPlaneGamePawn) (dt : ℚ) :
    AWarPlaneGamePawn × ℕ :=
  ({ (AWarPlaneGamePawn.EngineOverHeat^[(s.Timer2.Elapse dt).2] s) with
      Timer2 := (s.Timer2.Elapse dt).1 },
    (s.Timer2.Elapse dt).2)

/-- What the host can deliver to the pawn: the three bound axes, a run of `EngineBoostTimer`
(the call from `BeginPlay` or a firing of `Timer`), and the expiry of the cooldown handle. -/
inductive Event where
  | EngineBoost (Val : ℚ)
  | SlowDown (Val : ℚ)
  | RightRotation (Val : ℚ)
  | BoostTimer
  | OverHeatTimer
deriving DecidableEq

/-- One delivered event. The cooldown expiry lets exactly the remaining time of `Timer2`
pass. -/
def AWarPlaneGamePawn.step (s : AWarPlaneGamePawn) : Event → AWarPlaneGamePawn
  | .EngineBoost Val => s.EngineBoostInput Val
  | .SlowDown Val => s.SlowDownInput Val
  | .RightRotation Val => s.RightRotationInput Val
  | .BoostTimer => s.EngineBoostTimer
  | .OverHeatTimer => (s.CooldownElapse s.Timer2.Remaining).1

/-- The events of a list, delivered in order. -/
def AWarPlaneGamePawn.run (s : AWarPlaneGamePawn) (es : List Event) : AWarPlaneGamePawn :=
  es.foldl AWarPlaneGamePawn.step s

/-- States the pawn can be in after finitely many events, starting from `s0`. -/
inductive Reachable (s0 : AWarPlaneGamePawn) : AWarPlaneGamePawn → Prop where
  | init : Reachable s0 s0
  | step (s : AWarPlaneGamePawn) (e : Event) : Reachable s0 s → Reachable s0 (s.step e)

/-- One poll of held boost followed by one run of the heat timer. -/
def AWarPlaneGamePawn.boostCycle (s : AWarPlaneGamePawn) : AWarPlaneGamePawn :=
  (s.EngineBoostInput 1).EngineBoostTimer

/-- A pawn that is boosting with its boost resource down to `1.0`, a value a `float` holds
exactly. -/
def nearlyDepleted : AWarPlaneGamePawn :=
  { spawned with EngineControl := true, EngineBoostTime := 1 }

/-- The host's vector triple. -/
structure FVector where
  X : ℚ
  Y : ℚ
  Z : ℚ
deriving DecidableEq

/-- What one `Tick` asks of the host: the argument and sweep flag of `AddActorLocalOffset`
and the argument of `AddActorLocalRotation`. -/
structure TickRequest where
  LocalMove : FVector
  bSweep : Bool
  DeltaRotation : FRotator
deriving DecidableEq

/-- `AWarPlaneGamePawn::Tick(float DeltaSeconds)` (lines 62-82). The pawn assigns none of its
members; it builds `LocalMove` and `DeltaRotation` and hands them to the host. What the host
then does to the actor's rotation and to the attached camera (applying the swept move and the
local rotation, `Super::Tick`) is not part of the repository and is the parameter `HostApply`.
The result is the pawn after the frame together with the request it made. -/
def AWarPlaneGamePawn.Tick
    (HostApply : TickRequest → FRotator × FRotator → FRotator × FRotator)
    (s : AWarPlaneGamePawn) (DeltaSeconds : ℚ) : AWarPlaneGamePawn × TickRequest :=
  let LocalMove : FVector := { X := s.CurrentForwardSpeed * DeltaSeconds, Y := 0, Z := 0 }
  let d0 : FRotator := { Pitch := 0, Yaw := 0, Roll := 0 }
  let d1 : FRotator := { d0 with Pitch := s.CurrentPitchSpeed * DeltaSeconds }
  let d2 : FRotator := { d1 with Yaw := s.CurrentYawSpeed * DeltaSeconds }
  let DeltaRotation : FRotator := { d2 with Roll := s.CurrentRollSpeed * DeltaSeconds }
  let req : TickRequest :=
    { LocalMove := LocalMove, bSweep := true, DeltaRotation := DeltaRotation }
  ({ s with
      ActorRotation := (HostApply req (s.ActorRotation, s.CameraRotation)).1
      CameraRotation := (HostApply req (s.ActorRotation, s.CameraRotation)).2 },
    req)

/-- An event whose axis value, if it is a boost or slow-down poll, is `0` or `1` (a key that
is up or down). Turn polls and timer events are not restricted. -/
def Event.IsDigital : Event → Prop
  | .EngineBoost Val => Val = 0 ∨ Val = 1
  | .SlowDown Val => Val = 0 ∨ Val = 1
  | .RightRotation _ => True
  | .BoostTimer => True
  | .OverHeatTimer => True

/-- One poll of the turn axis at rest. -/
def AWarPlaneGamePawn.Turn0 (s : AWarPlaneGamePawn) : AWarPlaneGamePawn :=
  s.RightRotationInput 0

/-- The constructor's tunables together with a speed on the lattice they generate: a
multiple of `40` between `MinSpeed = 6000` and `MaxSpeed = 24000`. -/
def AWarPlaneGamePawn.OnLattice (s : AWarPlaneGamePawn) : Prop :=
  s.ChangeValue = 40 ∧ s.MaxSpeed = 24000 ∧ s.MinSpeed = 6000
    ∧ 6000 ≤ s.CurrentForwardSpeed ∧ s.CurrentForwardSpeed ≤ 24000
    ∧ 40 ∣ s.CurrentForwardSpeed

instance (s : AWarPlaneGamePawn) : Decidable s.OnLattice := by
  unfold AWarPlaneGamePawn.OnLattice
  infer_instance

instance (e : Event) : Decidable e.IsDigital := by
  cases e <;> unfold Event.IsDigital <;> infer_instance

/-! ## Truncation -/

theorem truncQ_intCast (z : ℤ) : truncQ (z : ℚ) = z := by
  unfold truncQ
  split <;> simp

theorem truncQ_add_int (z k : ℤ) : truncQ ((z : ℚ) + k) = z + k := by
  have h := truncQ_intCast (z + k)
  push_cast at h
  exact h

theorem ctor_speed (r c : FRotator) :
    (AWarPlaneGamePawn.ctor r c).CurrentForwardSpeed = 10000 := by
  have h := truncQ_intCast 10000
  simpa [AWarPlaneGamePawn.ctor] using h

theorem EngineBoostInput_frame (s : AWarPlaneGamePawn) (Val : ℚ) :
    (s.EngineBoostInput Val).ChangeValue = s.ChangeValue
    ∧ (s.EngineBoostInput Val).MaxSpeed = s.MaxSpeed
    ∧ (s.EngineBoostInput Val).MinSpeed = s.MinSpeed
    ∧ (s.EngineBoostInput Val).EngineBoostTime = s.EngineBoostTime
    ∧ (s.EngineBoostInput Val).OverHeating = s.OverHeating := by
  unfold AWarPlaneGamePawn.EngineBoostInput
  split_ifs <;> simp

theorem SlowDownInput_frame (s : AWarPlaneGamePawn) (Val : ℚ) :
    (s.SlowDownInput Val).ChangeValue = s.ChangeValue
    ∧ (s.SlowDownInput Val).MaxSpeed = s.MaxSpeed
    ∧ (s.SlowDownInput Val).MinSpeed = s.MinSpeed
    ∧ (s.SlowDownInput Val).EngineBoostTime = s.EngineBoostTime
    ∧ (s.SlowDownInput Val).OverHeating = s.OverHeating
    ∧ (s.SlowDownInput Val).EngineControl = s.EngineControl := by
  unfold AWarPlaneGamePawn.SlowDownInput
  split_ifs <;> simp

theorem EngineBoostInput_one_step (s : AWarPlaneGamePawn) (k : ℤ)
    (hcv : s.ChangeValue = k) (hb : s.EngineBoostTime > 1) (ho : s.OverHeating = false)
    (hlt : (s.CurrentForwardSpeed : ℚ) < s.MaxSpeed) :
    (s.EngineBoostInput 1).CurrentForwardSpeed = s.CurrentForwardSpeed + k := by
  have hg : (1 : ℚ) ≠ 0 ∧ s.EngineBoostTime > 1 ∧ s.OverHeating = false :=
    ⟨one_ne_zero, hb, ho⟩
  simp only [AWarPlaneGamePawn.EngineBoostInput, if_pos hg, if_pos hlt, hcv, one_mul]
  exact truncQ_add_int _ _

theorem SlowDownInput_one_step (s : AWarPlaneGamePawn) (k : ℤ)
    (hcv : s.ChangeValue = k) (hgt : (s.CurrentForwardSpeed : ℚ) > s.MinSpeed) :
    (s.SlowDownInput 1).CurrentForwardSpeed = s.CurrentForwardSpeed - k := by
  have h1 : (1 : ℚ) ≠ 0 := one_ne_zero
  simp only [AWarPlaneGamePawn.SlowDownInput, if_pos h1, if_pos hgt, hcv, one_mul]
  have h := truncQ_intCast (s.CurrentForwardSpeed - k)
  push_cast at h
  exact h

/-- Holding boost for `n` polls while every poll starts below `MaxSpeed`. -/
theorem EngineBoostInput_iterate (n : ℕ) (s : AWarPlaneGamePawn) (k : ℤ)
    (hcv : s.ChangeValue = k) (hb : s.EngineBoostTime > 1) (ho : s.OverHeating = false)
    (hlt : ∀ i : ℕ, i < n → ((s.CurrentForwardSpeed + k * i : ℤ) : ℚ) < s.MaxSpeed) :
    ((fun t : AWarPlaneGamePawn => t.EngineBoostInput 1)^[n] s).CurrentForwardSpeed
        = s.CurrentForwardSpeed + k * n
    ∧ ((fun t : AWarPlaneGamePawn => t.EngineBoostInput 1)^[n] s).ChangeValue = s.ChangeValue
    ∧ ((fun t : AWarPlaneGamePawn => t.EngineBoostInput 1)^[n] s).MaxSpeed = s.MaxSpeed
    ∧ ((fun t : AWarPlaneGamePawn => t.EngineBoostInput 1)^[n] s).MinSpeed = s.MinSpeed
    ∧ ((fun t : AWarPlaneGamePawn => t.EngineBoostInput 1)^[n] s).EngineBoostTime
        = s.EngineBoostTime
    ∧ ((fun t : AWarPlaneGamePawn => t.EngineBoostInput 1)^[n] s).OverHeating
        = s.OverHeating := by
  induction n with
  | zero => simp
  | succ m ih =>
    obtain ⟨h1, h2, h3, h4, h5, h6⟩ := ih (fun i hi => hlt i (Nat.lt_succ_of_lt hi))
    rw [Function.iterate_succ_apply']
    set t := (fun t : AWarPlaneGamePawn => t.EngineBoostInput 1)^[m] s with ht
    obtain ⟨f1, f2, f3, f4, f5⟩ := EngineBoostInput_frame t 1
    refine ⟨?_, by rw [f1, h2], by rw [f2, h3], by rw [f3, h4], by rw [f4, h5],
      by rw [f5, h6]⟩
    have hstep := EngineBoostInput_one_step t k (by rw [h2, hcv]) (by rw [h5]; exact hb)
      (by rw [h6]; exact ho) (by rw [h1, h3]; exact hlt m (Nat.lt_succ_self m))
    rw [hstep, h1]
    push_cast
    ring

/-- Holding the brake for `n` polls while every poll starts above `MinSpeed`. -/
theorem SlowDownInput_iterate (n : ℕ) (s : AWarPlaneGamePawn) (k : ℤ)
    (hcv : s.ChangeValue = k)
    (hgt : ∀ i : ℕ, i < n → ((s.CurrentForwardSpeed - k * i : ℤ) : ℚ) > s.MinSpeed) :
    ((fun t : AWarPlaneGamePawn => t.SlowDownInput 1)^[n] s).CurrentForwardSpeed
        = s.CurrentForwardSpeed - k * n
    ∧ ((fun t : AWarPlaneGamePawn => t.SlowDownInput 1)^[n] s).ChangeValue = s.ChangeValue
    ∧ ((fun t : AWarPlaneGamePawn => t.SlowDownInput 1)^[n] s).MaxSpeed = s.MaxSpeed
    ∧ ((fun t : AWarPlaneGamePawn => t.SlowDownInput 1)^[n] s).MinSpeed = s.MinSpeed := by
  induction n with
  | zero => simp
  | succ m ih =>
    obtain ⟨h1, h2, h3, h4⟩ := ih (fun i hi => hgt i (Nat.lt_succ_of_lt hi))
    rw [Function.iterate_succ_apply']
    set t := (fun t : AWarPlaneGamePawn => t.SlowDownInput 1)^[m] s with ht
    obtain ⟨f1, f2, f3, _, _, _⟩ := SlowDownInput_frame t 1
    refine ⟨?_, by rw [f1, h2], by rw [f2, h3], by rw [f3, h4]⟩
    have hstep := SlowDownInput_one_step t k (by rw [h2, hcv])
      (by rw [h1, h4]; exact hgt m (Nat.lt_succ_self m))
    rw [hstep, h1]
    push_cast
    ring

theorem spawned_boost_half :
    (spawned.EngineBoostInput (1 / 2)).CurrentForwardSpeed = 10020
    ∧ (spawned.EngineBoostInput (1 / 2)).ChangeValue = 40
    ∧ (spawned.EngineBoostInput (1 / 2)).MaxSpeed = 24000
    ∧ (spawned.EngineBoostInput (1 / 2)).MinSpeed = 6000
    ∧ (spawned.EngineBoostInput (1 / 2)).EngineBoostTime = 20
    ∧ (spawned.EngineBoostInput (1 / 2)).OverHeating = false := by
  obtain ⟨f1, f2, f3, f4, f5⟩ := EngineBoostInput_frame spawned (1 / 2)
  have hs : spawned.CurrentForwardSpeed = 10000 := ctor_speed _ _
  refine ⟨?_, by rw [f1]; rfl, by rw [f2]; rfl, by rw [f3]; rfl, by rw [f4]; rfl,
    by rw [f5]; rfl⟩
  have hg : (1 / 2 : ℚ) ≠ 0 ∧ spawned.EngineBoostTime > 1 ∧ spawned.OverHeating = false :=
    ⟨by norm_num, by norm_num [spawned, AWarPlaneGamePawn.ctor], rfl⟩
  have hlt : (spawned.CurrentForwardSpeed : ℚ) < spawned.MaxSpeed := by
    rw [hs]; norm_num [spawned, AWarPlaneGamePawn.ctor]
  have hcv : spawned.ChangeValue = 40 := rfl
  simp only [AWarPlaneGamePawn.EngineBoostInput, if_pos hg, if_pos hlt, hs, hcv]
  have h := truncQ_intCast 10020
  norm_num at h ⊢
  exact h

theorem spawned_slow_half :
    (spawned.SlowDownInput (1 / 2)).CurrentForwardSpeed = 9980
    ∧ (spawned.SlowDownInput (1 / 2)).ChangeValue = 40
    ∧ (spawned.SlowDownInput (1 / 2)).MaxSpeed = 24000
    ∧ (spawned.SlowDownInput (1 / 2)).MinSpeed = 6000 := by
  obtain ⟨f1, f2, f3, _, _, _⟩ := SlowDownInput_frame spawned (1 / 2)
  have hs : spawned.CurrentForwardSpeed = 10000 := ctor_speed _ _
  refine ⟨?_, by rw [f1]; rfl, by rw [f2]; rfl, by rw [f3]; rfl⟩
  have hg : (1 / 2 : ℚ) ≠ 0 := by norm_num
  have hgt : (spawned.CurrentForwardSpeed : ℚ) > spawned.MinSpeed := by
    rw [hs]; norm_num [spawned, AWarPlaneGamePawn.ctor]
  have hcv : spawned.ChangeValue = 40 := rfl
  simp only [AWarPlaneGamePawn.SlowDownInput, if_pos hg, if_pos hgt, hs, hcv]
  have h := truncQ_intCast 9980
  norm_num at h ⊢
  exact h

/-- C2, the code at the failing inputs. From the constructed pawn, one half-deflected boost
poll and 349 full ones lead to speed `23980`, inside `[6000, 24000]`; the next full poll
stores `24020`, above `MaxSpeed = 24000`. Likewise one half-deflected brake poll and 99 full
ones lead to `6020`, and the next full poll stores `5980`, below `MinSpeed = 6000`. -/
theorem speed_bound_not_preserved :
    (((fun t : AWarPlaneGamePawn => t.EngineBoostInput 1)^[349]
          (spawned.EngineBoostInput (1 / 2))).CurrentForwardSpeed = 23980
      ∧ ((fun t : AWarPlaneGamePawn => t.EngineBoostInput 1)^[350]
          (spawned.EngineBoostInput (1 / 2))).CurrentForwardSpeed = 24020
      ∧ ((fun t : AWarPlaneGamePawn => t.EngineBoostInput 1)^[350]
          (spawned.EngineBoostInput (1 / 2))).MaxSpeed = 24000)
    ∧ (((fun t : AWarPlaneGamePawn => t.SlowDownInput 1)^[99]
          (spawned.SlowDownInput (1 / 2))).CurrentForwardSpeed = 6020
      ∧ ((fun t : AWarPlaneGamePawn => t.SlowDownInput 1)^[100]
          (spawned.SlowDownInput (1 / 2))).CurrentForwardSpeed = 5980
      ∧ ((fun t : AWarPlaneGamePawn => t.SlowDownInput 1)^[100]
          (spawned.SlowDownInput (1 / 2))).MinSpeed = 6000) := by
  obtain ⟨b1, b2, b3, b4, b5, b6⟩ := spawned_boost_half
  obtain ⟨d1, d2, d3, d4⟩ := spawned_slow_half
  have hb : ∀ n : ℕ, n ≤ 350 →
      ((fun t : AWarPlaneGamePawn => t.EngineBoostInput 1)^[n]
          (spawned.EngineBoostInput (1 / 2))).CurrentForwardSpeed = 10020 + 40 * n
      ∧ ((fun t : AWarPlaneGamePawn => t.EngineBoostInput 1)^[n]
          (spawned.EngineBoostInput (1 / 2))).MaxSpeed = 24000 := by
    intro n hn
    obtain ⟨h1, _, h3, _⟩ := EngineBoostInput_iterate n (spawned.EngineBoostInput (1 / 2)) 40
      (by rw [b2]; norm_num) (by rw [b5]; norm_num) b6
      (by
        intro i hi
        rw [b1, b3]
        have : (i : ℚ) ≤ 349 := by exact_mod_cast (by omega : i ≤ 349)
        push_cast
        linarith)
    exact ⟨by rw [h1, b1], by rw [h3, b3]⟩
  have hd : ∀ n : ℕ, n ≤ 100 →
      ((fun t : AWarPlaneGamePawn => t.SlowDownInput 1)^[n]
          (spawned.SlowDownInput (1 / 2))).CurrentForwardSpeed = 9980 - 40 * n
      ∧ ((fun t : AWarPlaneGamePawn => t.SlowDownInput 1)^[n]
          (spawned.SlowDownInput (1 / 2))).MinSpeed = 6000 := by
    intro n hn
    obtain ⟨h1, _, _, h4⟩ := SlowDownInput_iterate n (spawned.SlowDownInput (1 / 2)) 40
      (by rw [d2]; norm_num)
      (by
        intro i hi
        rw [d1, d4]
        have : (i : ℚ) ≤ 99 := by exact_mod_cast (by omega : i ≤ 99)
        push_cast
        linarith)
    exact ⟨by rw [h1, d1], by rw [h4, d4]⟩
  refine ⟨⟨?_, ?_, (hb 350 le_rfl).2⟩, ?_, ?_, (hd 100 le_rfl).2⟩
  · rw [(hb 349 (by norm_num)).1]; norm_num
  · rw [(hb 350 le_rfl).1]; norm_num
  · rw [(hd 99 (by norm_num)).1]; norm_num
  · rw [(hd 100 le_rfl).1]; norm_num

/-! ## Heat timer -/

theorem TurnFrame.right_frame (f : TurnFrame) (Val : ℚ) :
    (f.right Val).Pawn.CurrentForwardSpeed = f.Pawn.CurrentForwardSpeed
    ∧ (f.right Val).Pawn.EngineControl = f.Pawn.EngineControl
    ∧ (f.right Val).Pawn.EngineBoostTime = f.Pawn.EngineBoostTime
    ∧ (f.right Val).Pawn.OverHeating = f.Pawn.OverHeating := by
  unfold TurnFrame.right
  split_ifs <;> simp

theorem TurnFrame.left_frame (f : TurnFrame) (Val : ℚ) :
    (f.left Val).Pawn.CurrentForwardSpeed = f.Pawn.CurrentForwardSpeed
    ∧ (f.left Val).Pawn.EngineControl = f.Pawn.EngineControl
    ∧ (f.left Val).Pawn.EngineBoostTime = f.Pawn.EngineBoostTime
    ∧ (f.left Val).Pawn.OverHeating = f.Pawn.OverHeating := by
  unfold TurnFrame.left
  split_ifs <;> simp

theorem TurnFrame.levelDown_frame (f : TurnFrame) :
    f.levelDown.Pawn.CurrentForwardSpeed = f.Pawn.CurrentForwardSpeed
    ∧ f.levelDown.Pawn.EngineControl = f.Pawn.EngineControl
    ∧ f.levelDown.Pawn.EngineBoostTime = f.Pawn.EngineBoostTime
    ∧ f.levelDown.Pawn.OverHeating = f.Pawn.OverHeating := by
  unfold TurnFrame.levelDown
  split_ifs <;> simp

theorem TurnFrame.levelUp_frame (f : TurnFrame) :
    f.levelUp.Pawn.CurrentForwardSpeed = f.Pawn.CurrentForwardSpeed
    ∧ f.levelUp.Pawn.EngineControl = f.Pawn.EngineControl
    ∧ f.levelUp.Pawn.EngineBoostTime = f.Pawn.EngineBoostTime
    ∧ f.levelUp.Pawn.OverHeating = f.Pawn.OverHeating := by
  unfold TurnFrame.levelUp
  split_ifs <;> simp

theorem TurnFrame.level_frame (f : TurnFrame) (Val : ℚ) :
    (f.level Val).Pawn.CurrentForwardSpeed = f.Pawn.CurrentForwardSpeed
    ∧ (f.level Val).Pawn.EngineControl = f.Pawn.EngineControl
    ∧ (f.level Val).Pawn.EngineBoostTime = f.Pawn.EngineBoostTime
    ∧ (f.level Val).Pawn.OverHeating = f.Pawn.OverHeating := by
  unfold TurnFrame.level
  obtain ⟨a1, a2, a3, a4⟩ := f.levelDown_frame
  obtain ⟨b1, b2, b3, b4⟩ := f.levelDown.levelUp_frame
  split_ifs
  · exact ⟨b1.trans a1, b2.trans a2, b3.trans a3, b4.trans a4⟩
  · exact ⟨rfl, rfl, rfl, rfl⟩

theorem RightRotationInput_frame (s : AWarPlaneGamePawn) (Val : ℚ) :
    (s.RightRotationInput Val).CurrentForwardSpeed = s.CurrentForwardSpeed
    ∧ (s.RightRotationInput Val).EngineControl = s.EngineControl
    ∧ (s.RightRotationInput Val).EngineBoostTime = s.EngineBoostTime
    ∧ (s.RightRotationInput Val).OverHeating = s.OverHeating := by
  have hdef : s.RightRotationInput Val
      = ((((TurnFrame.mk s s.ActorRotation s.CameraRotation).right Val).left Val).level
          Val).Pawn := rfl
  obtain ⟨a1, a2, a3, a4⟩ := (TurnFrame.mk s s.ActorRotation s.CameraRotation).right_frame Val
  obtain ⟨b1, b2, b3, b4⟩ :=
    ((TurnFrame.mk s s.ActorRotation s.CameraRotation).right Val).left_frame Val
  obtain ⟨c1, c2, c3, c4⟩ :=
    (((TurnFrame.mk s s.ActorRotation s.CameraRotation).right Val).left Val).level_frame Val
  rw [hdef, c1, c2, c3, c4, b1, b2, b3, b4, a1, a2, a3, a4]
  exact ⟨rfl, rfl, rfl, rfl⟩

theorem EngineOverHeat_iterate (n : ℕ) (s : AWarPlaneGamePawn) :
    (AWarPlaneGamePawn.EngineOverHeat^[n] s).EngineBoostTime = s.EngineBoostTime
    ∧ (AWarPlaneGamePawn.EngineOverHeat^[n] s).EngineControl = s.EngineControl
    ∧ (AWarPlaneGamePawn.EngineOverHeat^[n] s).CurrentForwardSpeed = s.CurrentForwardSpeed
    ∧ ((AWarPlaneGamePawn.EngineOverHeat^[n] s).OverHeating = true → s.OverHeating = true)
    ∧ (0 < n → (AWarPlaneGamePawn.EngineOverHeat^[n] s).OverHeating = false) := by
  induction n with
  | zero => simp
  | succ m ih =>
    obtain ⟨h1, h2, h3, _, _⟩ := ih
    rw [Function.iterate_succ_apply']
    simp [AWarPlaneGamePawn.EngineOverHeat, h1, h2, h3]

theorem CooldownElapse_frame (s : AWarPlaneGamePawn) (dt : ℚ) :
    (s.CooldownElapse dt).1.EngineBoostTime = s.EngineBoostTime
    ∧ (s.CooldownElapse dt).1.EngineControl = s.EngineControl
    ∧ (s.CooldownElapse dt).1.CurrentForwardSpeed = s.CurrentForwardSpeed
    ∧ ((s.CooldownElapse dt).1.OverHeating = true → s.OverHeating = true) := by
  obtain ⟨h1, h2, h3, h4, _⟩ := EngineOverHeat_iterate (s.Timer2.Elapse dt).2 s
  exact ⟨h1, h2, h3, h4⟩

/-- One run of the heat timer keeps the boost resource between `0.9` and `20`. -/
theorem EngineBoostTimer_bounds (s : AWarPlaneGamePawn)
    (h : 9 / 10 ≤ s.EngineBoostTime ∧ s.EngineBoostTime ≤ 20) :
    9 / 10 ≤ s.EngineBoostTimer.EngineBoostTime ∧ s.EngineBoostTimer.EngineBoostTime ≤ 20 := by
  obtain ⟨hlo, hhi⟩ := h
  unfold AWarPlaneGamePawn.EngineBoostTimer
  by_cases hc : s.EngineControl = true
  · have hc' : ¬ (s.EngineBoostTime ≤ 199 / 10 ∧ s.EngineControl = false) := by simp [hc]
    simp only [if_neg hc']
    by_cases h1 : s.EngineBoostTime ≥ 1
    · simp only [if_pos (And.intro h1 hc)]
      split_ifs <;> (constructor <;> simp only [] <;> linarith)
    · have : ¬ (s.EngineBoostTime ≥ 1 ∧ s.EngineControl = true) := fun hh => h1 hh.1
      simp only [if_neg this]
      exact ⟨hlo, hhi⟩
  · have hcf : s.EngineControl = false := by simpa using hc
    by_cases h1 : s.EngineBoostTime ≤ 199 / 10
    · simp only [if_pos (And.intro h1 hcf)]
      have : ¬ (s.EngineBoostTime + 1 / 10 ≥ 1 ∧ s.EngineControl = true) := fun hh => hc hh.2
      simp only [if_neg this]
      constructor <;> linarith
    · have h2 : ¬ (s.EngineBoostTime ≤ 199 / 10 ∧ s.EngineControl = false) :=
        fun hh => h1 hh.1
      have : ¬ (s.EngineBoostTime ≥ 1 ∧ s.EngineControl = true) := fun hh => hc hh.2
      simp only [if_neg h2, if_neg this]
      exact ⟨hlo, hhi⟩

theorem step_bounds (s : AWarPlaneGamePawn) (e : Event)
    (h : 9 / 10 ≤ s.EngineBoostTime ∧ s.EngineBoostTime ≤ 20) :
    9 / 10 ≤ (s.step e).EngineBoostTime ∧ (s.step e).EngineBoostTime ≤ 20 := by
  cases e with
  | EngineBoost v =>
    have := (EngineBoostInput_frame s v).2.2.2.1
    simp only [AWarPlaneGamePawn.step, this]; exact h
  | SlowDown v =>
    have := (SlowDownInput_frame s v).2.2.2.1
    simp only [AWarPlaneGamePawn.step, this]; exact h
  | RightRotation v =>
    have := (RightRotationInput_frame s v).2.2.1
    simp only [AWarPlaneGamePawn.step, this]; exact h
  | BoostTimer => exact EngineBoostTimer_bounds s h
  | OverHeatTimer =>
    have := (CooldownElapse_frame s s.Timer2.Remaining).1
    simp only [AWarPlaneGamePawn.step, this]; exact h

theorem Reachable.run {s0 s : AWarPlaneGamePawn} (h : Reachable s0 s) (es : List Event) :
    Reachable s0 (s.run es) := by
  induction es generalizing s with
  | nil => exact h
  | cons e es ih => exact ih (Reachable.step s e h)

/-- Holding `EngineControl`, `n` runs of the heat timer deplete `n` tenths as long as each
run starts at `1.0` or above. -/
theorem EngineBoostTimer_deplete (n : ℕ) (s : AWarPlaneGamePawn)
    (hc : s.EngineControl = true) (h : (n : ℚ) / 10 ≤ s.EngineBoostTime - 9 / 10) :
    (s.run (List.replicate n Event.BoostTimer)).EngineBoostTime = s.EngineBoostTime - n / 10
    ∧ (s.run (List.replicate n Event.BoostTimer)).EngineControl = true := by
  induction n generalizing s with
  | zero => simp [AWarPlaneGamePawn.run, hc]
  | succ m ih =>
    have hge : s.EngineBoostTime ≥ 1 := by
      have : (0 : ℚ) ≤ m := Nat.cast_nonneg m
      push_cast at h
      linarith
    have hc' : ¬ (s.EngineBoostTime ≤ 199 / 10 ∧ s.EngineControl = false) := by simp [hc]
    have ht : s.EngineBoostTimer.EngineBoostTime = s.EngineBoostTime - 1 / 10
        ∧ s.EngineBoostTimer.EngineControl = true := by
      unfold AWarPlaneGamePawn.EngineBoostTimer
      simp only [if_neg hc', if_pos (And.intro hge hc)]
      split_ifs <;> exact ⟨rfl, hc⟩
    have hrun : s.run (List.replicate (m + 1) Event.BoostTimer)
        = s.EngineBoostTimer.run (List.replicate m Event.BoostTimer) := by
      simp [AWarPlaneGamePawn.run, List.replicate_succ, AWarPlaneGamePawn.step]
    obtain ⟨i1, i2⟩ := ih s.EngineBoostTimer ht.2 (by rw [ht.1]; push_cast at h; linarith)
    rw [hrun, i1, ht.1]
    refine ⟨?_, i2⟩
    push_cast
    ring

theorem spawned_begin_boost :
    ((spawned.step Event.BoostTimer).step (Event.EngineBoost 1)).EngineBoostTime = 20
    ∧ ((spawned.step Event.BoostTimer).step (Event.EngineBoost 1)).EngineControl = true := by
  have h1 : ¬ (spawned.EngineBoostTime ≤ 199 / 10 ∧ spawned.EngineControl = false) := by
    norm_num [spawned, AWarPlaneGamePawn.ctor]
  have h2 : ¬ (spawned.EngineBoostTime ≥ 1 ∧ spawned.EngineControl = true) := by
    norm_num [spawned, AWarPlaneGamePawn.ctor]
  have e1 : (spawned.step Event.BoostTimer).EngineBoostTime = 20
      ∧ (spawned.step Event.BoostTimer).OverHeating = false := by
    simp only [AWarPlaneGamePawn.step, AWarPlaneGamePawn.EngineBoostTimer, if_neg h1, if_neg h2]
    exact ⟨rfl, rfl⟩
  have hg : (1 : ℚ) ≠ 0 ∧ (spawned.step Event.BoostTimer).EngineBoostTime > 1
      ∧ (spawned.step Event.BoostTimer).OverHeating = false :=
    ⟨one_ne_zero, by rw [e1.1]; norm_num, e1.2⟩
  obtain ⟨_, _, _, f4, _⟩ := EngineBoostInput_frame (spawned.step Event.BoostTimer) 1
  refine ⟨by simp only [AWarPlaneGamePawn.step] at f4 e1 ⊢; rw [f4, e1.1], ?_⟩
  show ((spawned.step Event.BoostTimer).EngineBoostInput 1).EngineControl = true
  simp only [AWarPlaneGamePawn.EngineBoostInput, if_pos hg]
  split_ifs <;> rfl

/-- C3, counterexample. From the constructed pawn (`engineBoostTime = 20`, `engineControl`
and `overHeating` false), the run of `EngineBoostTimer` made by `BeginPlay`, one boost poll and
191 further timer runs reach `engineBoostTime = 0.9`, which is below `1.0`. -/
theorem EngineBoostTime_reaches_below_one :
    spawned.EngineBoostTime = 20 ∧ spawned.EngineControl = false ∧ spawned.OverHeating = false
    ∧ Reachable spawned (spawned.run
        (Event.BoostTimer :: Event.EngineBoost 1 :: List.replicate 191 Event.BoostTimer))
    ∧ (spawned.run
        (Event.BoostTimer :: Event.EngineBoost 1
          :: List.replicate 191 Event.BoostTimer)).EngineBoostTime = 9 / 10
    ∧ ¬ (1 ≤ (spawned.run
        (Event.BoostTimer :: Event.EngineBoost 1
          :: List.replicate 191 Event.BoostTimer)).EngineBoostTime) := by
  obtain ⟨e1, e2⟩ := spawned_begin_boost
  have hrun : spawned.run
      (Event.BoostTimer :: Event.EngineBoost 1 :: List.replicate 191 Event.BoostTimer)
      = ((spawned.step Event.BoostTimer).step (Event.EngineBoost 1)).run
          (List.replicate 191 Event.BoostTimer) := by
    simp only [AWarPlaneGamePawn.run, List.foldl_cons]
  obtain ⟨d1, _⟩ := EngineBoostTimer_deplete 191
    ((spawned.step Event.BoostTimer).step (Event.EngineBoost 1)) e2 (by rw [e1]; norm_num)
  have hval : (spawned.run
      (Event.BoostTimer :: Event.EngineBoost 1
        :: List.replicate 191 Event.BoostTimer)).EngineBoostTime = 9 / 10 := by
    rw [hrun, d1, e1]; norm_num
  refine ⟨rfl, rfl, rfl, Reachable.run Reachable.init _, hval, ?_⟩
  rw [hval]; norm_num

/-- C3, amended. Every state reachable from a state with `engineBoostTime = 20`,
`engineControl = false`, `overHeating = false` by any sequence of boost, slow-down and turn
polls, heat-timer runs and cooldown expiries satisfies `0.9 ≤ engineBoostTime ≤ 20`. -/
theorem EngineBoostTime_bounds (s0 s : AWarPlaneGamePawn) (h0 : s0.EngineBoostTime = 20)
    (_hc : s0.EngineControl = false) (_ho : s0.OverHeating = false) (hr : Reachable s0 s) :
    9 / 10 ≤ s.EngineBoostTime ∧ s.EngineBoostTime ≤ 20 := by
  induction hr with
  | init => rw [h0]; norm_num
  | step t e _ ih => exact step_bounds t e ih

/-- The bounds of `EngineBoostTime_bounds` on the constructed pawn after `BeginPlay` and one
boost poll. -/
theorem EngineBoostTime_bounds_witness :
    spawned.EngineBoostTime = 20 ∧ spawned.EngineControl = false ∧ spawned.OverHeating = false
    ∧ Reachable spawned ((spawned.step Event.BoostTimer).step (Event.EngineBoost 1))
    ∧ 9 / 10 ≤ ((spawned.step Event.BoostTimer).step (Event.EngineBoost 1)).EngineBoostTime
    ∧ ((spawned.step Event.BoostTimer).step (Event.EngineBoost 1)).EngineBoostTime ≤ 20 :=
  ⟨rfl, rfl, rfl, Reachable.step _ _ (Reachable.step _ _ Reachable.init),
    EngineBoostTime_bounds spawned _ rfl rfl rfl
      (Reachable.step _ _ (Reachable.step _ _ Reachable.init))⟩

/-! ## Overheating -/

/-- What one run of the heat timer does while `EngineControl` is set. -/
theorem EngineBoostTimer_control (s : AWarPlaneGamePawn) (hc : s.EngineControl = true) :
    (1 ≤ s.EngineBoostTime →
        s.EngineBoostTimer.EngineBoostTime = s.EngineBoostTime - 1 / 10
        ∧ (s.EngineBoostTime - 1 / 10 ≤ 11 / 10 →
            s.EngineBoostTimer.OverHeating = true
            ∧ s.EngineBoostTimer.Timer2 = SetTimer 19 true)
        ∧ (11 / 10 < s.EngineBoostTime - 1 / 10 →
            s.EngineBoostTimer.OverHeating = s.OverHeating
            ∧ s.EngineBoostTimer.Timer2 = s.Timer2))
    ∧ (s.EngineBoostTime < 1 →
        s.EngineBoostTimer.EngineBoostTime = s.EngineBoostTime
        ∧ s.EngineBoostTimer.OverHeating = s.OverHeating
        ∧ s.EngineBoostTimer.Timer2 = s.Timer2)
    ∧ s.EngineBoostTimer.EngineControl = true
    ∧ s.EngineBoostTimer.CurrentForwardSpeed = s.CurrentForwardSpeed := by
  have hc' : ¬ (s.EngineBoostTime ≤ 199 / 10 ∧ s.EngineControl = false) := by simp [hc]
  refine ⟨?_, ?_, ?_, ?_⟩
  · intro h1
    have hg : s.EngineBoostTime ≥ 1 ∧ s.EngineControl = true := ⟨h1, hc⟩
    refine ⟨?_, ?_, ?_⟩
    · simp only [AWarPlaneGamePawn.EngineBoostTimer, if_neg hc', if_pos hg]
      split_ifs <;> rfl
    · intro h2
      simp only [AWarPlaneGamePawn.EngineBoostTimer, if_neg hc', if_pos hg, if_pos h2]
      exact ⟨trivial, trivial⟩
    · intro h2
      simp only [AWarPlaneGamePawn.EngineBoostTimer, if_neg hc', if_pos hg,
        if_neg (not_le.mpr h2)]
      exact ⟨trivial, trivial⟩
  · intro h1
    have hg : ¬ (s.EngineBoostTime ≥ 1 ∧ s.EngineControl = true) :=
      fun hh => absurd hh.1 (not_le.mpr h1)
    simp only [AWarPlaneGamePawn.EngineBoostTimer, if_neg hc', if_neg hg]
    exact ⟨trivial, trivial, trivial⟩
  · simp only [AWarPlaneGamePawn.EngineBoostTimer, if_neg hc']
    split_ifs <;> exact hc
  · simp only [AWarPlaneGamePawn.EngineBoostTimer, if_neg hc']
    split_ifs <;> rfl

/-- What one run of the heat timer does while `EngineControl` is clear. -/
theorem EngineBoostTimer_idle (s : AWarPlaneGamePawn) (hc : s.EngineControl = false) :
    (s.EngineBoostTime ≤ 199 / 10 →
        s.EngineBoostTimer.EngineBoostTime = s.EngineBoostTime + 1 / 10)
    ∧ (199 / 10 < s.EngineBoostTime →
        s.EngineBoostTimer.EngineBoostTime = s.EngineBoostTime)
    ∧ s.EngineBoostTimer.OverHeating = s.OverHeating
    ∧ s.EngineBoostTimer.Timer2 = s.Timer2
    ∧ s.EngineBoostTimer.EngineControl = false
    ∧ s.EngineBoostTimer.CurrentForwardSpeed = s.CurrentForwardSpeed := by
  have hn : ∀ q : ℚ, ¬ (q ≥ 1 ∧ s.EngineControl = true) := by simp [hc]
  refine ⟨?_, ?_, ?_, ?_, ?_, ?_⟩
  · intro h1
    simp only [AWarPlaneGamePawn.EngineBoostTimer, if_pos (And.intro h1 hc), if_neg (hn _)]
  · intro h1
    have hg : ¬ (s.EngineBoostTime ≤ 199 / 10 ∧ s.EngineControl = false) :=
      fun hh => absurd hh.1 (not_le.mpr h1)
    simp only [AWarPlaneGamePawn.EngineBoostTimer, if_neg hg, if_neg (hn _)]
  all_goals
    by_cases h1 : s.EngineBoostTime ≤ 199 / 10
    · simp only [AWarPlaneGamePawn.EngineBoostTimer, if_pos (And.intro h1 hc), if_neg (hn _)]
      all_goals exact hc
    · have hg : ¬ (s.EngineBoostTime ≤ 199 / 10 ∧ s.EngineControl = false) :=
        fun hh => h1 hh.1
      simp only [AWarPlaneGamePawn.EngineBoostTimer, if_neg hg, if_neg (hn _)]
      all_goals exact hc

theorem EngineBoostInput_control_iff (s : AWarPlaneGamePawn) (Val : ℚ) :
    (s.EngineBoostInput Val).EngineControl = true
      ↔ Val ≠ 0 ∧ s.EngineBoostTime > 1 ∧ s.OverHeating = false := by
  constructor
  · intro h
    by_contra hg
    simp only [AWarPlaneGamePawn.EngineBoostInput, if_neg hg] at h
    split_ifs at h
  · intro hg
    simp only [AWarPlaneGamePawn.EngineBoostInput, if_pos hg]
    split_ifs <;> rfl

theorem EngineBoostTimer_sets_OverHeating (s : AWarPlaneGamePawn)
    (ho : s.OverHeating = false) (h : s.EngineBoostTimer.OverHeating = true) :
    s.EngineControl = true ∧ 1 ≤ s.EngineBoostTime
      ∧ s.EngineBoostTimer.EngineBoostTime ≤ 11 / 10 := by
  by_cases hc : s.EngineControl = true
  · obtain ⟨c1, c2, _, _⟩ := EngineBoostTimer_control s hc
    by_cases h1 : 1 ≤ s.EngineBoostTime
    · obtain ⟨e1, _, e3⟩ := c1 h1
      refine ⟨hc, h1, ?_⟩
      by_contra hgt
      rw [e1] at hgt
      have := (e3 (not_le.mp hgt)).1
      rw [this, ho] at h
      exact absurd h (by simp)
    · have := (c2 (not_le.mp h1)).2.1
      rw [this, ho] at h
      exact absurd h (by simp)
  · have hcf : s.EngineControl = false := by simpa using hc
    have := (EngineBoostTimer_idle s hcf).2.2.1
    rw [this, ho] at h
    exact absurd h (by simp)

theorem boostCycle_spec (s : AWarPlaneGamePawn) (ho : s.OverHeating = false)
    (hb : 1 < s.EngineBoostTime) :
    s.boostCycle.EngineBoostTime = s.EngineBoostTime - 1 / 10
    ∧ (11 / 10 < s.EngineBoostTime - 1 / 10 → s.boostCycle.OverHeating = false)
    ∧ (s.EngineBoostTime - 1 / 10 ≤ 11 / 10 → s.boostCycle.OverHeating = true) := by
  have hg : (1 : ℚ) ≠ 0 ∧ s.EngineBoostTime > 1 ∧ s.OverHeating = false :=
    ⟨one_ne_zero, hb, ho⟩
  obtain ⟨_, _, _, f4, f5⟩ := EngineBoostInput_frame s 1
  have hc : (s.EngineBoostInput 1).EngineControl = true :=
    (EngineBoostInput_control_iff s 1).mpr hg
  obtain ⟨c1, _, _, _⟩ := EngineBoostTimer_control (s.EngineBoostInput 1) hc
  obtain ⟨e1, e2, e3⟩ := c1 (by rw [f4]; exact le_of_lt hb)
  rw [f4] at e1 e2 e3
  rw [f5, ho] at e3
  exact ⟨e1, fun h => (e3 h).1, fun h => (e2 h).1⟩

theorem boostCycle_iterate (k : ℕ) (s : AWarPlaneGamePawn)
    (he : s.EngineBoostTime = 12 / 10 + k / 10) (ho : s.OverHeating = false) (j : ℕ)
    (hj : j ≤ k) :
    (AWarPlaneGamePawn.boostCycle^[j] s).EngineBoostTime = s.EngineBoostTime - j / 10
    ∧ 11 / 10 < (AWarPlaneGamePawn.boostCycle^[j] s).EngineBoostTime
    ∧ (AWarPlaneGamePawn.boostCycle^[j] s).OverHeating = false := by
  have hk : (0 : ℚ) ≤ k := Nat.cast_nonneg k
  induction j with
  | zero =>
    refine ⟨by simp, ?_, by simpa using ho⟩
    simp only [Function.iterate_zero, id_eq, he]
    linarith
  | succ m ih =>
    obtain ⟨i1, i2, i3⟩ := ih (Nat.le_of_succ_le hj)
    have hm : ((m : ℚ) + 1) ≤ k := by exact_mod_cast hj
    rw [Function.iterate_succ_apply']
    obtain ⟨c1, c2, _⟩ := boostCycle_spec (AWarPlaneGamePawn.boostCycle^[m] s) i3
      (by linarith)
    have hgt : 11 / 10 < (AWarPlaneGamePawn.boostCycle^[m] s).EngineBoostTime - 1 / 10 := by
      rw [i1, he]; linarith
    refine ⟨?_, by rw [c1]; exact hgt, c2 hgt⟩
    rw [c1, i1]
    push_cast
    ring

/-- C6. Across all events the host delivers, `overHeating` goes from false to true only in a
run of `EngineBoostTimer` taken with `engineControl = true` whose resulting `engineBoostTime`
is at most `1.1`. And from `engineBoostTime = 1.2 + k/10` with `overHeating = false`,
repeating the cycle boost poll / timer run, the first `k` runs give results above `1.1` with
`overHeating` still false, and run `k + 1` gives exactly `1.1` and sets `overHeating`. -/
theorem OverHeating_raised_only_by_depleting_tick :
    (∀ (s : AWarPlaneGamePawn) (e : Event), s.OverHeating = false →
        (s.step e).OverHeating = true →
        e = Event.BoostTimer ∧ s.EngineControl = true
          ∧ (s.step e).EngineBoostTime ≤ 11 / 10)
    ∧ (∀ (k : ℕ) (s : AWarPlaneGamePawn), s.EngineBoostTime = 12 / 10 + k / 10 →
        s.OverHeating = false →
        (∀ j : ℕ, j ≤ k →
            (AWarPlaneGamePawn.boostCycle^[j] s).EngineBoostTime = s.EngineBoostTime - j / 10
            ∧ 11 / 10 < (AWarPlaneGamePawn.boostCycle^[j] s).EngineBoostTime
            ∧ (AWarPlaneGamePawn.boostCycle^[j] s).OverHeating = false)
        ∧ (AWarPlaneGamePawn.boostCycle^[k + 1] s).EngineBoostTime = 11 / 10
        ∧ (AWarPlaneGamePawn.boostCycle^[k + 1] s).OverHeating = true) := by
  constructor
  · intro s e ho h
    cases e with
    | EngineBoost v =>
      have := (EngineBoostInput_frame s v).2.2.2.2
      simp only [AWarPlaneGamePawn.step] at h
      rw [this, ho] at h
      exact absurd h (by simp)
    | SlowDown v =>
      have := (SlowDownInput_frame s v).2.2.2.2.1
      simp only [AWarPlaneGamePawn.step] at h
      rw [this, ho] at h
      exact absurd h (by simp)
    | RightRotation v =>
      have := (RightRotationInput_frame s v).2.2.2
      simp only [AWarPlaneGamePawn.step] at h
      rw [this, ho] at h
      exact absurd h (by simp)
    | BoostTimer =>
      obtain ⟨a, _, c⟩ := EngineBoostTimer_sets_OverHeating s ho h
      exact ⟨rfl, a, c⟩
    | OverHeatTimer =>
      have := (CooldownElapse_frame s s.Timer2.Remaining).2.2.2 h
      rw [ho] at this
      exact absurd this (by simp)
  · intro k s he ho
    refine ⟨fun j hj => boostCycle_iterate k s he ho j hj, ?_⟩
    obtain ⟨i1, i2, i3⟩ := boostCycle_iterate k s he ho k le_rfl
    rw [Function.iterate_succ_apply']
    obtain ⟨c1, _, c3⟩ := boostCycle_spec (AWarPlaneGamePawn.boostCycle^[k] s) i3
      (by linarith)
    have hval : (AWarPlaneGamePawn.boostCycle^[k] s).EngineBoostTime - 1 / 10 = 11 / 10 := by
      rw [i1, he]; ring
    exact ⟨by rw [c1, hval], c3 (le_of_eq hval)⟩

/-- `OverHeating_raised_only_by_depleting_tick` on concrete pawns: a boosting pawn at `1.2`
whose timer run sets `overHeating`, and the cycle started at `1.2` (`k = 0`). -/
theorem OverHeating_raised_only_by_depleting_tick_witness :
    (({ spawned with EngineControl := true, EngineBoostTime := 12 / 10 }
          : AWarPlaneGamePawn).step Event.BoostTimer).OverHeating = true
    ∧ (({ spawned with EngineControl := true, EngineBoostTime := 12 / 10 }
          : AWarPlaneGamePawn).step Event.BoostTimer).EngineBoostTime ≤ 11 / 10
    ∧ (AWarPlaneGamePawn.boostCycle^[0 + 1]
          ({ spawned with EngineBoostTime := 12 / 10 } : AWarPlaneGamePawn)).EngineBoostTime
        = 11 / 10
    ∧ (AWarPlaneGamePawn.boostCycle^[0 + 1]
          ({ spawned with EngineBoostTime := 12 / 10 } : AWarPlaneGamePawn)).OverHeating
        = true := by
  have hset : (({ spawned with EngineControl := true, EngineBoostTime := 12 / 10 }
      : AWarPlaneGamePawn).step Event.BoostTimer).OverHeating = true := by
    norm_num [AWarPlaneGamePawn.step, AWarPlaneGamePawn.EngineBoostTimer]
  exact ⟨hset,
    (OverHeating_raised_only_by_depleting_tick.1 _ Event.BoostTimer rfl hset).2.2,
    (OverHeating_raised_only_by_depleting_tick.2 0
      { spawned with EngineBoostTime := 12 / 10 } (by norm_num) rfl).2⟩

/-! ## C8, C9: the two halves of the heat timer -/

/-- C8. With `engineControl = true`, one run of `EngineBoostTimer` sets `engineBoostTime` to
`engineBoostTime − 0.1` when `engineBoostTime ≥ 1.0` and leaves it unchanged when
`engineBoostTime < 1.0`; when it depletes and the result is at most `1.1` it sets
`overHeating` and arms the cooldown handle for 19 seconds, and when the result is above `1.1`
it leaves `overHeating` and the cooldown handle unchanged. -/
theorem EngineBoostTimer_depletion (s : AWarPlaneGamePawn) (hc : s.EngineControl = true) :
    (1 ≤ s.EngineBoostTime →
        s.EngineBoostTimer.EngineBoostTime = s.EngineBoostTime - 1 / 10
        ∧ (s.EngineBoostTimer.EngineBoostTime ≤ 11 / 10 →
            s.EngineBoostTimer.OverHeating = true
            ∧ s.EngineBoostTimer.Timer2.Armed = true
            ∧ s.EngineBoostTimer.Timer2.Rate = 19
            ∧ s.EngineBoostTimer.Timer2.Remaining = 19)
        ∧ (11 / 10 < s.EngineBoostTimer.EngineBoostTime →
            s.EngineBoostTimer.OverHeating = s.OverHeating
            ∧ s.EngineBoostTimer.Timer2 = s.Timer2))
    ∧ (s.EngineBoostTime < 1 → s.EngineBoostTimer.EngineBoostTime = s.EngineBoostTime) := by
  obtain ⟨c1, c2, _, _⟩ := EngineBoostTimer_control s hc
  refine ⟨fun h1 => ?_, fun h1 => (c2 h1).1⟩
  obtain ⟨e1, e2, e3⟩ := c1 h1
  refine ⟨e1, fun h2 => ?_, fun h2 => e3 (by rw [e1] at h2; exact h2)⟩
  obtain ⟨a, b⟩ := e2 (by rw [e1] at h2; exact h2)
  rw [b]
  exact ⟨a, rfl, rfl, rfl⟩

/-- `EngineBoostTimer_depletion` on two boosting pawns whose `engineBoostTime` a `float` holds
exactly. At `1.0` the run leaves `0.9`, which is at most `1.1`: it sets `overHeating` and arms
the cooldown handle with 19 seconds remaining. At `2.0` the run leaves `1.9`, which is above
`1.1`: `overHeating` and the cooldown handle stay as they were. -/
theorem EngineBoostTimer_depletion_witness :
    (nearlyDepleted.EngineBoostTimer.EngineBoostTime = 1 - 1 / 10
      ∧ nearlyDepleted.EngineBoostTimer.OverHeating = true
      ∧ nearlyDepleted.EngineBoostTimer.Timer2.Armed = true
      ∧ nearlyDepleted.EngineBoostTimer.Timer2.Remaining = 19)
    ∧ (({ spawned with EngineControl := true, EngineBoostTime := 2 }
          : AWarPlaneGamePawn).EngineBoostTimer.EngineBoostTime = 2 - 1 / 10
      ∧ ({ spawned with EngineControl := true, EngineBoostTime := 2 }
          : AWarPlaneGamePawn).EngineBoostTimer.OverHeating = false
      ∧ ({ spawned with EngineControl := true, EngineBoostTime := 2 }
          : AWarPlaneGamePawn).EngineBoostTimer.Timer2 = FTimerHandle.Invalid) := by
  have he : nearlyDepleted.EngineBoostTime = 1 := rfl
  have h := (EngineBoostTimer_depletion nearlyDepleted rfl).1 (by rw [he])
  rw [he] at h
  have h2 := h.2.1 (by rw [h.1]; norm_num)
  have g := (EngineBoostTimer_depletion
    { spawned with EngineControl := true, EngineBoostTime := 2 } rfl).1 (by
      show (1 : ℚ) ≤ 2
      norm_num)
  have g2 := g.2.2 (by
    rw [g.1]
    show (11 / 10 : ℚ) < 2 - 1 / 10
    norm_num)
  exact ⟨⟨h.1, h2.1, h2.2.1, h2.2.2.2⟩, g.1, g2.1, g2.2⟩

theorem RightRotationInput_right (s : AWarPlaneGamePawn) :
    (80 < s.ActorRotation.Roll → s.RightRotationInput 1 = s)
    ∧ (s.ActorRotation.Roll ≤ 80 →
        (s.RightRotationInput 1).ActorRotation
          = { Pitch := s.ActorRotation.Pitch, Yaw := s.ActorRotation.Yaw + 1 / 50,
              Roll := s.ActorRotation.Roll + 1 }
        ∧ (s.RightRotationInput 1).CameraRotation
          = { Pitch := s.CameraRotation.Pitch, Yaw := s.CameraRotation.Yaw, Roll := 0 }) := by
  have h1 : ¬ ((1 : ℚ) = -1) := by norm_num
  have h0 : ¬ ((1 : ℚ) = 0) := by norm_num
  constructor
  · intro h
    simp only [AWarPlaneGamePawn.RightRotationInput, TurnFrame.right, TurnFrame.left,
      TurnFrame.level, if_neg (not_le.mpr h), if_neg h1, if_neg h0, if_true]
  · intro h
    simp only [AWarPlaneGamePawn.RightRotationInput, TurnFrame.right, TurnFrame.left,
      TurnFrame.level, if_pos h, if_neg h1, if_neg h0, if_true]
    exact ⟨trivial, trivial⟩

theorem RightRotationInput_left (s : AWarPlaneGamePawn) :
    (s.ActorRotation.Roll < -80 → s.RightRotationInput (-1) = s)
    ∧ (-80 ≤ s.ActorRotation.Roll →
        (s.RightRotationInput (-1)).ActorRotation
          = { Pitch := s.ActorRotation.Pitch, Yaw := s.ActorRotation.Yaw + -1 / 50,
              Roll := s.ActorRotation.Roll + -1 }
        ∧ (s.RightRotationInput (-1)).CameraRotation
          = { Pitch := s.CameraRotation.Pitch, Yaw := s.CameraRotation.Yaw, Roll := 0 }) := by
  have h1 : ¬ ((-1 : ℚ) = 1) := by norm_num
  have h0 : ¬ ((-1 : ℚ) = 0) := by norm_num
  have hge : ∀ q : ℚ, (q ≥ -80) = (-80 ≤ q) := fun _ => rfl
  constructor
  · intro h
    simp only [AWarPlaneGamePawn.RightRotationInput, TurnFrame.right, TurnFrame.left,
      TurnFrame.level, hge, if_neg (not_le.mpr h), if_neg h1, if_neg h0, if_true]
  · intro h
    simp only [AWarPlaneGamePawn.RightRotationInput, TurnFrame.right, TurnFrame.left,
      TurnFrame.level, hge, if_pos h, if_neg h1, if_neg h0, if_true]
    exact ⟨trivial, trivial⟩

/-- C10. For `val = 1`, `RightRotationInput` leaves roll and yaw unchanged when the roll
exceeds `80`, and otherwise sets yaw to `yaw + 1/50` and roll to `roll + 1`; for `val = −1` it
leaves them unchanged when the roll is below `−80`, and otherwise sets yaw to `yaw − 1/50`
and roll to `roll − 1`. In the turning cases the camera's roll is set to `0` and the camera's
yaw is unchanged. -/
theorem RightRotationInput_steering (s : AWarPlaneGamePawn) :
    (80 < s.ActorRotation.Roll →
        (s.RightRotationInput 1).ActorRotation.Roll = s.ActorRotation.Roll
        ∧ (s.RightRotationInput 1).ActorRotation.Yaw = s.ActorRotation.Yaw)
    ∧ (¬ 80 < s.ActorRotation.Roll →
        (s.RightRotationInput 1).ActorRotation.Yaw = s.ActorRotation.Yaw + 1 / 50
        ∧ (s.RightRotationInput 1).ActorRotation.Roll = s.ActorRotation.Roll + 1
        ∧ (s.RightRotationInput 1).CameraRotation.Roll = 0
        ∧ (s.RightRotationInput 1).CameraRotation.Yaw = s.CameraRotation.Yaw)
    ∧ (s.ActorRotation.Roll < -80 →
        (s.RightRotationInput (-1)).ActorRotation.Roll = s.ActorRotation.Roll
        ∧ (s.RightRotationInput (-1)).ActorRotation.Yaw = s.ActorRotation.Yaw)
    ∧ (¬ s.ActorRotation.Roll < -80 →
        (s.RightRotationInput (-1)).ActorRotation.Yaw = s.ActorRotation.Yaw - 1 / 50
        ∧ (s.RightRotationInput (-1)).ActorRotation.Roll = s.ActorRotation.Roll - 1
        ∧ (s.RightRotationInput (-1)).CameraRotation.Roll = 0
        ∧ (s.RightRotationInput (-1)).CameraRotation.Yaw = s.CameraRotation.Yaw) := by
  obtain ⟨r1, r2⟩ := RightRotationInput_right s
  obtain ⟨l1, l2⟩ := RightRotationInput_left s
  refine ⟨fun h => ?_, fun h => ?_, fun h => ?_, fun h => ?_⟩
  · rw [r1 h]; exact ⟨rfl, rfl⟩
  · obtain ⟨a, c⟩ := r2 (not_lt.mp h)
    rw [a, c]; exact ⟨rfl, rfl, rfl, rfl⟩
  · rw [l1 h]; exact ⟨rfl, rfl⟩
  · obtain ⟨a, c⟩ := l2 (not_lt.mp h)
    rw [a, c]
    refine ⟨?_, ?_, rfl, rfl⟩
    · show s.ActorRotation.Yaw + -1 / 50 = s.ActorRotation.Yaw - 1 / 50
      ring
    · show s.ActorRotation.Roll + -1 = s.ActorRotation.Roll - 1
      ring

/-- `RightRotationInput_steering` at roll `85` with `val = 1` (nothing moves) and at roll `80`
with `val = 1` (the pawn still turns). -/
theorem RightRotationInput_steering_witness :
    ((({ spawned with ActorRotation := { Pitch := 0, Yaw := 10, Roll := 85 } }
          : AWarPlaneGamePawn).RightRotationInput 1).ActorRotation.Roll = 85
      ∧ (({ spawned with ActorRotation := { Pitch := 0, Yaw := 10, Roll := 85 } }
          : AWarPlaneGamePawn).RightRotationInput 1).ActorRotation.Yaw = 10)
    ∧ ((({ spawned with ActorRotation := { Pitch := 0, Yaw := 10, Roll := 80 } }
          : AWarPlaneGamePawn).RightRotationInput 1).ActorRotation.Yaw = 10 + 1 / 50
      ∧ (({ spawned with ActorRotation := { Pitch := 0, Yaw := 10, Roll := 80 } }
          : AWarPlaneGamePawn).RightRotationInput 1).ActorRotation.Roll = 80 + 1) := by
  have h1 := (RightRotationInput_steering
    { spawned with ActorRotation := { Pitch := 0, Yaw := 10, Roll := 85 } }).1
      (by norm_num)
  have h2 := (RightRotationInput_steering
    { spawned with ActorRotation := { Pitch := 0, Yaw := 10, Roll := 80 } }).2.1
      (by norm_num)
  exact ⟨h1, h2.1, h2.2.1⟩

/-! ## C7: the cooldown handle -/

theorem Elapse_cooldown_before (dt : ℚ) (h : dt < 19) :
    (SetTimer 19 true).Elapse dt
      = ({ Armed := true, Rate := 19, Loop := true, Remaining := 19 - dt }, 0) := by
  have hn : ¬ ((SetTimer 19 true).Armed = true ∧ (SetTimer 19 true).Remaining ≤ dt) :=
    fun hh => absurd hh.2 (not_le.mpr h)
  have ha : (SetTimer 19 true).Armed = true := rfl
  simp only [FTimerHandle.Elapse, if_neg hn, if_pos ha]
  rfl

theorem Elapse_cooldown_periods (n : ℕ) :
    (SetTimer 19 true).Elapse (19 * (n + 1)) = (SetTimer 19 true, n + 1) := by
  have hn : (0 : ℚ) ≤ n := Nat.cast_nonneg n
  have hp : (SetTimer 19 true).Armed = true
      ∧ (SetTimer 19 true).Remaining ≤ 19 * ((n : ℚ) + 1) :=
    ⟨rfl, by show (19 : ℚ) ≤ 19 * ((n : ℚ) + 1); linarith⟩
  have hl : (SetTimer 19 true).Loop = true := rfl
  have hfl : ⌊(19 * ((n : ℚ) + 1) - (SetTimer 19 true).Remaining) / (SetTimer 19 true).Rate⌋
      = (n : ℤ) := by
    have : (19 * ((n : ℚ) + 1) - (SetTimer 19 true).Remaining) / (SetTimer 19 true).Rate
        = ((n : ℤ) : ℚ) := by
      show (19 * ((n : ℚ) + 1) - 19) / 19 = ((n : ℤ) : ℚ)
      push_cast
      ring
    rw [this, Int.floor_intCast]
  simp only [FTimerHandle.Elapse, if_pos hp, if_pos hl, hfl, Int.toNat_ofNat]
  refine Prod.ext ?_ rfl
  show FTimerHandle.mk true 19 true (19 + ((n + 1 : ℕ) : ℚ) * 19 - 19 * ((n : ℚ) + 1))
      = FTimerHandle.mk true 19 true 19
  congr 1
  push_cast
  ring

/-- The cooldown handle as `EngineBoostTimer` arms it: nothing happens before 19 seconds are
over, and after `n + 1` full periods `EngineOverHeat` has run `n + 1` times and the handle is
pending again for a full period. -/
theorem CooldownElapse_armed (t : AWarPlaneGamePawn) (hT : t.Timer2 = SetTimer 19 true) :
    (∀ dt : ℚ, dt < 19 →
        (t.CooldownElapse dt).2 = 0
        ∧ (t.CooldownElapse dt).1.OverHeating = t.OverHeating
        ∧ (t.CooldownElapse dt).1.Timer2.Armed = true)
    ∧ (∀ n : ℕ,
        (t.CooldownElapse (19 * (n + 1))).2 = n + 1
        ∧ (t.CooldownElapse (19 * (n + 1))).1.OverHeating = false
        ∧ (t.CooldownElapse (19 * (n + 1))).1.Timer2 = SetTimer 19 true) := by
  constructor
  · intro dt hdt
    have he := Elapse_cooldown_before dt hdt
    simp only [AWarPlaneGamePawn.CooldownElapse, hT, he, Function.iterate_zero, id_eq]
    exact ⟨trivial, trivial, trivial⟩
  · intro n
    have he := Elapse_cooldown_periods n
    have hit := (EngineOverHeat_iterate (n + 1) t).2.2.2.2 (Nat.succ_pos n)
    simp only [AWarPlaneGamePawn.CooldownElapse, hT, he]
    exact ⟨trivial, hit, trivial⟩

theorem overheated_pawn :
    nearlyDepleted.EngineBoostTimer.OverHeating = true
    ∧ nearlyDepleted.EngineBoostTimer.Timer2 = SetTimer 19 true := by
  obtain ⟨c1, _, _, _⟩ := EngineBoostTimer_control nearlyDepleted rfl
  have he : nearlyDepleted.EngineBoostTime = 1 := rfl
  exact (c1 (by rw [he])).2.1 (by rw [he]; norm_num)

/-- C7, counterexample. A boosting pawn at `engineBoostTime = 1.0` enters Overheated on the next
timer run (the run leaves `0.9`, at most `1.1`), which arms the cooldown handle. When the 19
seconds are over `EngineOverHeat` runs and clears `overHeating`, but the cooldown handle is
still armed; 19 seconds later, with no timer run in between, it runs once more; over 38
seconds it has run twice. -/
theorem cooldown_timer_not_single_shot :
    nearlyDepleted.EngineBoostTimer.OverHeating = true
    ∧ (nearlyDepleted.EngineBoostTimer.CooldownElapse 19).2 = 1
    ∧ (nearlyDepleted.EngineBoostTimer.CooldownElapse 19).1.OverHeating = false
    ∧ (nearlyDepleted.EngineBoostTimer.CooldownElapse 19).1.Timer2.Armed = true
    ∧ ((nearlyDepleted.EngineBoostTimer.CooldownElapse 19).1.CooldownElapse 19).2 = 1
    ∧ (nearlyDepleted.EngineBoostTimer.CooldownElapse 38).2 = 2 := by
  obtain ⟨ho, hT⟩ := overheated_pawn
  obtain ⟨_, hper⟩ := CooldownElapse_armed _ hT
  have e19 : (19 : ℚ) * (((0 : ℕ) : ℚ) + 1) = 19 := by norm_num
  have e38 : (19 : ℚ) * (((1 : ℕ) : ℚ) + 1) = 38 := by norm_num
  have p0 := hper 0
  have p1 := hper 1
  rw [e19] at p0
  rw [e38] at p1
  obtain ⟨_, hper2⟩ := CooldownElapse_armed _ p0.2.2
  have q0 := hper2 0
  rw [e19] at q0
  refine ⟨ho, p0.1, p0.2.1, ?_, q0.1, p1.1⟩
  rw [p0.2.2]; rfl

/-- C7, amended. The timer run that enters Overheated (`engineControl = true`,
`engineBoostTime ≥ 1`, result at most `1.1`) arms the cooldown handle as a repeating 19-second
timer. `EngineOverHeat` does not run before the 19 seconds are over and `overHeating` stays
true until then; at expiry it runs and clears `overHeating`, and the handle stays armed for
another full period: after `n + 1` periods without re-arming it has run `n + 1` times, each
time leaving `overHeating` false. -/
theorem cooldown_timer_repeats (s : AWarPlaneGamePawn) (hc : s.EngineControl = true)
    (h1 : 1 ≤ s.EngineBoostTime) (h2 : s.EngineBoostTime - 1 / 10 ≤ 11 / 10) :
    s.EngineBoostTimer.OverHeating = true
    ∧ s.EngineBoostTimer.Timer2 = SetTimer 19 true
    ∧ (SetTimer 19 true).Loop = true
    ∧ (∀ dt : ℚ, dt < 19 →
        (s.EngineBoostTimer.CooldownElapse dt).2 = 0
        ∧ (s.EngineBoostTimer.CooldownElapse dt).1.OverHeating = true
        ∧ (s.EngineBoostTimer.CooldownElapse dt).1.Timer2.Armed = true)
    ∧ (∀ n : ℕ,
        (s.EngineBoostTimer.CooldownElapse (19 * (n + 1))).2 = n + 1
        ∧ (s.EngineBoostTimer.CooldownElapse (19 * (n + 1))).1.OverHeating = false
        ∧ (s.EngineBoostTimer.CooldownElapse (19 * (n + 1))).1.Timer2 = SetTimer 19 true) := by
  obtain ⟨c1, _, _, _⟩ := EngineBoostTimer_control s hc
  obtain ⟨ho, hT⟩ := (c1 h1).2.1 h2
  obtain ⟨hbefore, hper⟩ := CooldownElapse_armed s.EngineBoostTimer hT
  refine ⟨ho, hT, rfl, fun dt hdt => ?_, hper⟩
  obtain ⟨a, b, c⟩ := hbefore dt hdt
  exact ⟨a, by rw [b, ho], c⟩

/-- `cooldown_timer_repeats` on a boosting pawn at `engineBoostTime = 1.0`: after 10 seconds
the callback has not run and `overHeating` is still true; after 19 seconds it has run once and
`overHeating` is false. -/
theorem cooldown_timer_repeats_witness :
    (nearlyDepleted.EngineBoostTimer.CooldownElapse 10).2 = 0
    ∧ (nearlyDepleted.EngineBoostTimer.CooldownElapse 10).1.OverHeating = true
    ∧ (nearlyDepleted.EngineBoostTimer.CooldownElapse (19 * ((0 : ℕ) + 1))).2 = 0 + 1
    ∧ (nearlyDepleted.EngineBoostTimer.CooldownElapse
          (19 * ((0 : ℕ) + 1))).1.OverHeating = false := by
  have he : nearlyDepleted.EngineBoostTime = 1 := rfl
  have h := cooldown_timer_repeats nearlyDepleted rfl
    (by rw [he]) (by rw [he]; norm_num)
  have a := h.2.2.2.1 10 (by norm_num)
  have b := h.2.2.2.2 0
  exact ⟨a.1, a.2.1, b.1, b.2.1⟩

/-! ## C11, C13, C17: the turn axis at rest and the roll bound -/

/-- The three cases of a turn poll with `Val = 0`. -/
theorem RightRotationInput_zero (s : AWarPlaneGamePawn) :
    (1 < s.ActorRotation.Roll →
        (s.RightRotationInput 0).ActorRotation
          = { Pitch := s.ActorRotation.Pitch, Yaw := s.ActorRotation.Yaw,
              Roll := s.ActorRotation.Roll - 1 }
        ∧ (s.RightRotationInput 0).CameraRotation
          = { Pitch := s.CameraRotation.Pitch, Yaw := s.CameraRotation.Yaw + 1 / 50,
              Roll := 0 })
    ∧ (s.ActorRotation.Roll < -1 →
        (s.RightRotationInput 0).ActorRotation
          = { Pitch := s.ActorRotation.Pitch, Yaw := s.ActorRotation.Yaw,
              Roll := s.ActorRotation.Roll + 1 }
        ∧ (s.RightRotationInput 0).CameraRotation
          = { Pitch := s.CameraRotation.Pitch, Yaw := s.CameraRotation.Yaw - 1 / 50,
              Roll := 0 })
    ∧ (-1 ≤ s.ActorRotation.Roll → s.ActorRotation.Roll ≤ 1 →
        s.RightRotationInput 0 = s) := by
  have h1 : ¬ ((0 : ℚ) = 1) := by norm_num
  have h2 : ¬ ((0 : ℚ) = -1) := by norm_num
  have hgt : ∀ q : ℚ, (q > 1) = (1 < q) := fun _ => rfl
  refine ⟨fun h => ?_, fun h => ?_, fun hlo hhi => ?_⟩
  · have hn : ¬ (s.ActorRotation.Roll - 1 < -1) := by linarith
    simp only [AWarPlaneGamePawn.RightRotationInput, TurnFrame.right, TurnFrame.left,
      TurnFrame.level, TurnFrame.levelDown, TurnFrame.levelUp, hgt, if_neg h1, if_neg h2,
      if_pos h, if_neg hn, if_true]
    exact ⟨trivial, trivial⟩
  · have hn : ¬ (1 < s.ActorRotation.Roll) := by linarith
    simp only [AWarPlaneGamePawn.RightRotationInput, TurnFrame.right, TurnFrame.left,
      TurnFrame.level, TurnFrame.levelDown, TurnFrame.levelUp, hgt, if_neg h1, if_neg h2,
      if_pos h, if_neg hn, if_true]
    exact ⟨trivial, trivial⟩
  · have hn1 : ¬ (1 < s.ActorRotation.Roll) := not_lt.mpr hhi
    have hn2 : ¬ (s.ActorRotation.Roll < -1) := not_lt.mpr hlo
    simp only [AWarPlaneGamePawn.RightRotationInput, TurnFrame.right, TurnFrame.left,
      TurnFrame.level, TurnFrame.levelDown, TurnFrame.levelUp, hgt, if_neg h1, if_neg h2,
      if_neg hn1, if_neg hn2, if_true]

/-- C11. For every state with `|roll| ≤ 1`, `RightRotationInput(0)` returns the state as it
was (so the vehicle's roll, yaw and pitch and the camera's rotation are unchanged), and so
does any number of repeated calls. -/
theorem RightRotationInput_zero_level (s : AWarPlaneGamePawn)
    (h : |s.ActorRotation.Roll| ≤ 1) :
    s.RightRotationInput 0 = s
    ∧ (s.RightRotationInput 0).ActorRotation = s.ActorRotation
    ∧ (s.RightRotationInput 0).CameraRotation = s.CameraRotation
    ∧ (∀ n : ℕ, (AWarPlaneGamePawn.Turn0^[n] s) = s) := by
  obtain ⟨hlo, hhi⟩ := abs_le.mp h
  have hid : s.RightRotationInput 0 = s := (RightRotationInput_zero s).2.2 hlo hhi
  refine ⟨hid, by rw [hid], by rw [hid], fun n => ?_⟩
  induction n with
  | zero => rfl
  | succ m ih =>
    rw [Function.iterate_succ_apply', ih]
    exact hid

/-- `RightRotationInput_zero_level` on a pawn banked by half a degree: five polls at rest
leave it as it is. -/
theorem RightRotationInput_zero_level_witness :
    |({ spawned with ActorRotation := { Pitch := 3, Yaw := 10, Roll := 1 / 2 } }
        : AWarPlaneGamePawn).ActorRotation.Roll| ≤ 1
    ∧ (AWarPlaneGamePawn.Turn0^[5]
        ({ spawned with ActorRotation := { Pitch := 3, Yaw := 10, Roll := 1 / 2 } }
          : AWarPlaneGamePawn))
      = ({ spawned with ActorRotation := { Pitch := 3, Yaw := 10, Roll := 1 / 2 } }
          : AWarPlaneGamePawn) := by
  have hr : |({ spawned with ActorRotation := { Pitch := 3, Yaw := 10, Roll := 1 / 2 } }
      : AWarPlaneGamePawn).ActorRotation.Roll| ≤ 1 := by
    show |(1 / 2 : ℚ)| ≤ 1
    rw [abs_of_pos (by norm_num)]
    norm_num
  exact ⟨hr, (RightRotationInput_zero_level _ hr).2.2.2 5⟩

/-- A poll at rest on a pawn banked by more than one degree takes one degree off `|roll|`. -/
theorem Turn0_abs (s : AWarPlaneGamePawn) (h : 1 < |s.ActorRotation.Roll|) :
    |s.Turn0.ActorRotation.Roll| = |s.ActorRotation.Roll| - 1 := by
  obtain ⟨z1, z2, _⟩ := RightRotationInput_zero s
  rcases lt_abs.mp h with hp | hn
  · have e : s.Turn0.ActorRotation.Roll = s.ActorRotation.Roll - 1 := by
      show (s.RightRotationInput 0).ActorRotation.Roll = _
      rw [(z1 hp).1]
    rw [e, abs_of_pos (by linarith), abs_of_pos (by linarith)]
  · have hn' : s.ActorRotation.Roll < -1 := by linarith
    have e : s.Turn0.ActorRotation.Roll = s.ActorRotation.Roll + 1 := by
      show (s.RightRotationInput 0).ActorRotation.Roll = _
      rw [(z2 hn').1]
    rw [e, abs_of_neg (by linarith), abs_of_neg (by linarith)]
    ring

theorem Turn0_fixed (s : AWarPlaneGamePawn) (h : |s.ActorRotation.Roll| ≤ 1) (n : ℕ) :
    AWarPlaneGamePawn.Turn0^[n] s = s := by
  obtain ⟨hlo, hhi⟩ := abs_le.mp h
  have hid : s.Turn0 = s := (RightRotationInput_zero s).2.2 hlo hhi
  induction n with
  | zero => rfl
  | succ m ih => rw [Function.iterate_succ_apply', ih]; exact hid

/-- After `n` polls at rest a pawn banked by at most `n + 1` degrees is level. -/
theorem Turn0_levels (n : ℕ) (s : AWarPlaneGamePawn)
    (h : |s.ActorRotation.Roll| ≤ n + 1) :
    |(AWarPlaneGamePawn.Turn0^[n] s).ActorRotation.Roll| ≤ 1 := by
  induction n generalizing s with
  | zero => simpa using h
  | succ m ih =>
    by_cases hl : |s.ActorRotation.Roll| ≤ 1
    · rw [Turn0_fixed s hl]; exact hl
    · rw [Function.iterate_succ_apply]
      apply ih
      rw [Turn0_abs s (not_le.mp hl)]
      push_cast at h
      linarith

/-- C13. `RightRotationInput(0)` on a pawn with `roll > 1` sets roll to `roll − 1`, camera yaw
to `yaw + 0.02` and camera roll to `0`; with `roll < −1` it sets roll to `roll + 1`, camera
yaw to `yaw − 0.02` and camera roll to `0`. Only one correction is applied in a call: `|roll|`
drops by exactly `1` and the roll keeps its sign. From any state, some number of repeated
calls reaches `|roll| ≤ 1`, and further calls change nothing. -/
theorem RightRotationInput_autolevel (s : AWarPlaneGamePawn) :
    (1 < s.ActorRotation.Roll →
        (s.RightRotationInput 0).ActorRotation.Roll = s.ActorRotation.Roll - 1
        ∧ (s.RightRotationInput 0).CameraRotation.Yaw = s.CameraRotation.Yaw + 1 / 50
        ∧ (s.RightRotationInput 0).CameraRotation.Roll = 0
        ∧ |(s.RightRotationInput 0).ActorRotation.Roll| = |s.ActorRotation.Roll| - 1
        ∧ 0 < (s.RightRotationInput 0).ActorRotation.Roll)
    ∧ (s.ActorRotation.Roll < -1 →
        (s.RightRotationInput 0).ActorRotation.Roll = s.ActorRotation.Roll + 1
        ∧ (s.RightRotationInput 0).CameraRotation.Yaw = s.CameraRotation.Yaw - 1 / 50
        ∧ (s.RightRotationInput 0).CameraRotation.Roll = 0
        ∧ |(s.RightRotationInput 0).ActorRotation.Roll| = |s.ActorRotation.Roll| - 1
        ∧ (s.RightRotationInput 0).ActorRotation.Roll < 0)
    ∧ (∃ n : ℕ, |(AWarPlaneGamePawn.Turn0^[n] s).ActorRotation.Roll| ≤ 1
        ∧ ∀ m : ℕ, n ≤ m →
            AWarPlaneGamePawn.Turn0^[m] s = AWarPlaneGamePawn.Turn0^[n] s) := by
  obtain ⟨z1, z2, _⟩ := RightRotationInput_zero s
  refine ⟨fun h => ?_, fun h => ?_, ?_⟩
  · obtain ⟨a, c⟩ := z1 h
    have habs := Turn0_abs s (lt_of_lt_of_le h (le_abs_self _))
    refine ⟨by rw [a], by rw [c], by rw [c], habs, ?_⟩
    rw [a]
    show 0 < s.ActorRotation.Roll - 1
    linarith
  · obtain ⟨a, c⟩ := z2 h
    have habs := Turn0_abs s (lt_of_lt_of_le (by linarith) (neg_le_abs _))
    refine ⟨by rw [a], by rw [c], by rw [c], habs, ?_⟩
    rw [a]
    show s.ActorRotation.Roll + 1 < 0
    linarith
  · refine ⟨⌈|s.ActorRotation.Roll|⌉₊, ?_, fun m hm => ?_⟩
    · exact Turn0_levels _ s (by
        have := Nat.le_ceil |s.ActorRotation.Roll|
        linarith)
    · obtain ⟨d, rfl⟩ := Nat.exists_eq_add_of_le hm
      rw [Nat.add_comm, Function.iterate_add_apply]
      exact Turn0_fixed _ (Turn0_levels _ s (by
        have := Nat.le_ceil |s.ActorRotation.Roll|
        linarith)) d

/-- `RightRotationInput_autolevel` on a pawn banked by `3.5` degrees with camera yaw `7`: one
poll at rest leaves roll `2.5`, camera yaw `7.02` and camera roll `0`. -/
theorem RightRotationInput_autolevel_witness :
    (({ spawned with
          ActorRotation := { Pitch := 0, Yaw := 0, Roll := 7 / 2 }
          CameraRotation := { Pitch := 0, Yaw := 7, Roll := 7 / 2 } }
        : AWarPlaneGamePawn).RightRotationInput 0).ActorRotation.Roll = 7 / 2 - 1
    ∧ (({ spawned with
          ActorRotation := { Pitch := 0, Yaw := 0, Roll := 7 / 2 }
          CameraRotation := { Pitch := 0, Yaw := 7, Roll := 7 / 2 } }
        : AWarPlaneGamePawn).RightRotationInput 0).CameraRotation.Yaw = 7 + 1 / 50
    ∧ (({ spawned with
          ActorRotation := { Pitch := 0, Yaw := 0, Roll := 7 / 2 }
          CameraRotation := { Pitch := 0, Yaw := 7, Roll := 7 / 2 } }
        : AWarPlaneGamePawn).RightRotationInput 0).CameraRotation.Roll = 0 := by
  have h := (RightRotationInput_autolevel
    { spawned with
      ActorRotation := { Pitch := 0, Yaw := 0, Roll := 7 / 2 }
      CameraRotation := { Pitch := 0, Yaw := 7, Roll := 7 / 2 } }).1 (by norm_num)
  exact ⟨h.1, h.2.1, h.2.2.1⟩

/-- C17. For every state with `−81 ≤ roll ≤ 81` and every `val` in `{−1, 0, 1}`, the roll
after `RightRotationInput(val)` is again within `[−81, 81]`; and the bound is attained:
`RightRotationInput(1)` at `roll = 80` yields `roll = 81`. -/
theorem RightRotationInput_roll_bound :
    (∀ (s : AWarPlaneGamePawn) (Val : ℚ), (Val = -1 ∨ Val = 0 ∨ Val = 1) →
        -81 ≤ s.ActorRotation.Roll → s.ActorRotation.Roll ≤ 81 →
        -81 ≤ (s.RightRotationInput Val).ActorRotation.Roll
        ∧ (s.RightRotationInput Val).ActorRotation.Roll ≤ 81)
    ∧ (∀ s : AWarPlaneGamePawn, s.ActorRotation.Roll = 80 →
        (s.RightRotationInput 1).ActorRotation.Roll = 81) := by
  constructor
  · intro s Val hv hlo hhi
    rcases hv with rfl | rfl | rfl
    · obtain ⟨l1, l2⟩ := RightRotationInput_left s
      by_cases h : s.ActorRotation.Roll < -80
      · rw [l1 h]; exact ⟨hlo, hhi⟩
      · rw [(l2 (not_lt.mp h)).1]
        show -81 ≤ s.ActorRotation.Roll + -1 ∧ s.ActorRotation.Roll + -1 ≤ 81
        constructor <;> linarith
    · obtain ⟨z1, z2, z3⟩ := RightRotationInput_zero s
      by_cases h1 : 1 < s.ActorRotation.Roll
      · rw [(z1 h1).1]
        show -81 ≤ s.ActorRotation.Roll - 1 ∧ s.ActorRotation.Roll - 1 ≤ 81
        constructor <;> linarith
      · by_cases h2 : s.ActorRotation.Roll < -1
        · rw [(z2 h2).1]
          show -81 ≤ s.ActorRotation.Roll + 1 ∧ s.ActorRotation.Roll + 1 ≤ 81
          constructor <;> linarith
        · rw [z3 (not_lt.mp h2) (not_lt.mp h1)]; exact ⟨hlo, hhi⟩
    · obtain ⟨r1, r2⟩ := RightRotationInput_right s
      by_cases h : 80 < s.ActorRotation.Roll
      · rw [r1 h]; exact ⟨hlo, hhi⟩
      · rw [(r2 (not_lt.mp h)).1]
        show -81 ≤ s.ActorRotation.Roll + 1 ∧ s.ActorRotation.Roll + 1 ≤ 81
        constructor <;> linarith
  · intro s h
    rw [((RightRotationInput_right s).2 (by rw [h])).1]
    show s.ActorRotation.Roll + 1 = 81
    rw [h]; norm_num

/-- `RightRotationInput_roll_bound` on a pawn at `roll = 80` polled with `val = 1`: the roll
becomes `81` and is within the bound. -/
theorem RightRotationInput_roll_bound_witness :
    (({ spawned with ActorRotation := { Pitch := 0, Yaw := 0, Roll := 80 } }
        : AWarPlaneGamePawn).RightRotationInput 1).ActorRotation.Roll = 81
    ∧ (({ spawned with ActorRotation := { Pitch := 0, Yaw := 0, Roll := 80 } }
        : AWarPlaneGamePawn).RightRotationInput 1).ActorRotation.Roll ≤ 81 :=
  ⟨RightRotationInput_roll_bound.2
      { spawned with ActorRotation := { Pitch := 0, Yaw := 0, Roll := 80 } } rfl,
    (RightRotationInput_roll_bound.1
      { spawned with ActorRotation := { Pitch := 0, Yaw := 0, Roll := 80 } } 1
      (Or.inr (Or.inr rfl)) (by norm_num) (by norm_num)).2⟩

/-! ## C12, C19: whole and fractional speed steps -/

theorem truncQ_sub_int (z k : ℤ) : truncQ ((z : ℚ) - k) = z - k := by
  have h := truncQ_intCast (z - k)
  push_cast at h
  exact h

/-- The assignment on line 142, taken when boost is permitted at or above `MaxSpeed`. -/
theorem EngineBoostInput_at_max (s : AWarPlaneGamePawn) (Val : ℚ) (hv : Val ≠ 0)
    (hb : s.EngineBoostTime > 1) (ho : s.OverHeating = false)
    (hge : s.MaxSpeed ≤ (s.CurrentForwardSpeed : ℚ)) :
    (s.EngineBoostInput Val).CurrentForwardSpeed = truncQ s.MaxSpeed := by
  have hg : Val ≠ 0 ∧ s.EngineBoostTime > 1 ∧ s.OverHeating = false := ⟨hv, hb, ho⟩
  simp only [AWarPlaneGamePawn.EngineBoostInput, if_pos hg, if_neg (not_lt.mpr hge)]

/-- A boost poll that is not permitted (or has `Val = 0`): line 148. -/
theorem EngineBoostInput_rest (s : AWarPlaneGamePawn) (Val : ℚ) (k : ℤ)
    (hg : ¬ (Val ≠ 0 ∧ s.EngineBoostTime > 1 ∧ s.OverHeating = false))
    (hcv : s.ChangeValue = k) :
    (s.CurrentForwardSpeed > 10000 →
        (s.EngineBoostInput Val).CurrentForwardSpeed = s.CurrentForwardSpeed - k)
    ∧ (¬ s.CurrentForwardSpeed > 10000 →
        (s.EngineBoostInput Val).CurrentForwardSpeed = s.CurrentForwardSpeed) := by
  constructor
  · intro h
    simp only [AWarPlaneGamePawn.EngineBoostInput, if_neg hg, if_pos h, hcv]
    exact truncQ_sub_int _ _
  · intro h
    simp only [AWarPlaneGamePawn.EngineBoostInput, if_neg hg, if_neg h]

/-- A slow-down poll with `Val = 0`: line 167. -/
theorem SlowDownInput_rest (s : AWarPlaneGamePawn) (k : ℤ) (hcv : s.ChangeValue = k) :
    (s.CurrentForwardSpeed < 10000 →
        (s.SlowDownInput 0).CurrentForwardSpeed = s.CurrentForwardSpeed + k)
    ∧ (¬ s.CurrentForwardSpeed < 10000 →
        (s.SlowDownInput 0).CurrentForwardSpeed = s.CurrentForwardSpeed) := by
  have h0 : ¬ ((0 : ℚ) ≠ 0) := fun h => h rfl
  constructor
  · intro h
    simp only [AWarPlaneGamePawn.SlowDownInput, if_neg h0, if_pos h, hcv]
    exact truncQ_add_int _ _
  · intro h
    simp only [AWarPlaneGamePawn.SlowDownInput, if_neg h0, if_neg h]

/-- A slow-down poll with a non-zero value at or below `MinSpeed`: line 162. -/
theorem SlowDownInput_at_min (s : AWarPlaneGamePawn) (Val : ℚ) (hv : Val ≠ 0)
    (hle : (s.CurrentForwardSpeed : ℚ) ≤ s.MinSpeed) :
    (s.SlowDownInput Val).CurrentForwardSpeed = truncQ s.MinSpeed := by
  simp only [AWarPlaneGamePawn.SlowDownInput, if_pos hv, if_neg (not_lt.mpr hle)]

/-- C14. For every state and frame time `dt` (and whatever the host does with the request),
`Tick(dt)` requests the local displacement `(currentForwardSpeed*dt, 0, 0)`, swept, and the
local rotation delta `pitch = currentPitchSpeed*dt`, `yaw = currentYawSpeed*dt`,
`roll = currentRollSpeed*dt`; it changes none of `currentForwardSpeed`, `engineBoostTime`,
`engineControl`, `overHeating`; and for `dt = 0` both requests are zero. -/
theorem Tick_kinematics
    (HostApply : TickRequest → FRotator × FRotator → FRotator × FRotator)
    (s : AWarPlaneGamePawn) (dt : ℚ) :
    (s.Tick HostApply dt).2.LocalMove = { X := s.CurrentForwardSpeed * dt, Y := 0, Z := 0 }
    ∧ (s.Tick HostApply dt).2.bSweep = true
    ∧ (s.Tick HostApply dt).2.DeltaRotation
        = { Pitch := s.CurrentPitchSpeed * dt, Yaw := s.CurrentYawSpeed * dt,
            Roll := s.CurrentRollSpeed * dt }
    ∧ (s.Tick HostApply dt).1.CurrentForwardSpeed = s.CurrentForwardSpeed
    ∧ (s.Tick HostApply dt).1.EngineBoostTime = s.EngineBoostTime
    ∧ (s.Tick HostApply dt).1.EngineControl = s.EngineControl
    ∧ (s.Tick HostApply dt).1.OverHeating = s.OverHeating
    ∧ (s.Tick HostApply 0).2.LocalMove = { X := 0, Y := 0, Z := 0 }
    ∧ (s.Tick HostApply 0).2.DeltaRotation = { Pitch := 0, Yaw := 0, Roll := 0 } := by
  refine ⟨rfl, rfl, rfl, rfl, rfl, rfl, rfl, ?_, ?_⟩
  · show FVector.mk (s.CurrentForwardSpeed * 0) 0 0 = FVector.mk 0 0 0
    rw [mul_zero]
  · show FRotator.mk (s.CurrentPitchSpeed * 0) (s.CurrentYawSpeed * 0) (s.CurrentRollSpeed * 0)
      = FRotator.mk 0 0 0
    rw [mul_zero, mul_zero, mul_zero]

/-! ## C18: frame conditions -/

theorem SlowDownInput_only_speed (s : AWarPlaneGamePawn) (Val : ℚ) :
    s.SlowDownInput Val
      = { s with CurrentForwardSpeed := (s.SlowDownInput Val).CurrentForwardSpeed } := by
  unfold AWarPlaneGamePawn.SlowDownInput
  split_ifs <;> rfl

theorem EngineBoostInput_only_speed_control (s : AWarPlaneGamePawn) (Val : ℚ) :
    s.EngineBoostInput Val
      = { s with
          CurrentForwardSpeed := (s.EngineBoostInput Val).CurrentForwardSpeed
          EngineControl := (s.EngineBoostInput Val).EngineControl } := by
  unfold AWarPlaneGamePawn.EngineBoostInput
  split_ifs <;> rfl

theorem EngineBoostTimer_frame (s : AWarPlaneGamePawn) :
    s.EngineBoostTimer.CurrentForwardSpeed = s.CurrentForwardSpeed
    ∧ s.EngineBoostTimer.EngineControl = s.EngineControl := by
  by_cases hc : s.EngineControl = true
  · obtain ⟨_, _, c3, c4⟩ := EngineBoostTimer_control s hc
    exact ⟨c4, by rw [c3, hc]⟩
  · have hcf : s.EngineControl = false := by simpa using hc
    obtain ⟨_, _, _, _, c5, c6⟩ := EngineBoostTimer_idle s hcf
    exact ⟨c6, by rw [c5, hcf]⟩

/-- C18. `SlowDownInput(val)` changes no field other than `currentForwardSpeed`;
`EngineBoostInput(val)` changes no field other than `currentForwardSpeed` and
`engineControl`; `RightRotationInput(val)` changes none of `currentForwardSpeed`,
`engineControl`, `engineBoostTime`, `overHeating`; a run of `EngineBoostTimer`, a call of
`EngineOverHeat` and a cooldown expiry change neither `currentForwardSpeed` nor
`engineControl`. -/
theorem frame_conditions (s : AWarPlaneGamePawn) (Val : ℚ) :
    (s.SlowDownInput Val
        = { s with CurrentForwardSpeed := (s.SlowDownInput Val).CurrentForwardSpeed }
      ∧ (s.SlowDownInput Val).EngineControl = s.EngineControl
      ∧ (s.SlowDownInput Val).EngineBoostTime = s.EngineBoostTime
      ∧ (s.SlowDownInput Val).OverHeating = s.OverHeating)
    ∧ s.EngineBoostInput Val
        = { s with
            CurrentForwardSpeed := (s.EngineBoostInput Val).CurrentForwardSpeed
            EngineControl := (s.EngineBoostInput Val).EngineControl }
    ∧ ((s.RightRotationInput Val).CurrentForwardSpeed = s.CurrentForwardSpeed
      ∧ (s.RightRotationInput Val).EngineControl = s.EngineControl
      ∧ (s.RightRotationInput Val).EngineBoostTime = s.EngineBoostTime
      ∧ (s.RightRotationInput Val).OverHeating = s.OverHeating)
    ∧ (s.EngineBoostTimer.CurrentForwardSpeed = s.CurrentForwardSpeed
      ∧ s.EngineBoostTimer.EngineControl = s.EngineControl)
    ∧ (s.EngineOverHeat.CurrentForwardSpeed = s.CurrentForwardSpeed
      ∧ s.EngineOverHeat.EngineControl = s.EngineControl)
    ∧ ((s.step Event.OverHeatTimer).CurrentForwardSpeed = s.CurrentForwardSpeed
      ∧ (s.step Event.OverHeatTimer).EngineControl = s.EngineControl) := by
  obtain ⟨_, _, _, d4, d5, d6⟩ := SlowDownInput_frame s Val
  obtain ⟨_, e2, e3, _⟩ := CooldownElapse_frame s s.Timer2.Remaining
  exact ⟨⟨SlowDownInput_only_speed s Val, d6, d4, d5⟩,
    EngineBoostInput_only_speed_control s Val, RightRotationInput_frame s Val,
    EngineBoostTimer_frame s, ⟨rfl, rfl⟩, ⟨e3, e2⟩⟩

/-! ## C15: the speed lattice of the default tunables -/

theorem TurnFrame.right_rotation_only (f : TurnFrame) (Val : ℚ) :
    ∃ a c : FRotator,
      (f.right Val).Pawn = { f.Pawn with ActorRotation := a, CameraRotation := c } := by
  unfold TurnFrame.right
  split_ifs
  · exact ⟨_, _, rfl⟩
  · exact ⟨f.Pawn.ActorRotation, f.Pawn.CameraRotation, rfl⟩
  · exact ⟨f.Pawn.ActorRotation, f.Pawn.CameraRotation, rfl⟩

theorem TurnFrame.left_rotation_only (f : TurnFrame) (Val : ℚ) :
    ∃ a c : FRotator,
      (f.left Val).Pawn = { f.Pawn with ActorRotation := a, CameraRotation := c } := by
  unfold TurnFrame.left
  split_ifs
  · exact ⟨_, _, rfl⟩
  · exact ⟨f.Pawn.ActorRotation, f.Pawn.CameraRotation, rfl⟩
  · exact ⟨f.Pawn.ActorRotation, f.Pawn.CameraRotation, rfl⟩

theorem TurnFrame.levelDown_rotation_only (f : TurnFrame) :
    ∃ a c : FRotator,
      f.levelDown.Pawn = { f.Pawn with ActorRotation := a, CameraRotation := c } := by
  unfold TurnFrame.levelDown
  split_ifs
  · exact ⟨_, _, rfl⟩
  · exact ⟨f.Pawn.ActorRotation, f.Pawn.CameraRotation, rfl⟩

theorem TurnFrame.levelUp_rotation_only (f : TurnFrame) :
    ∃ a c : FRotator,
      f.levelUp.Pawn = { f.Pawn with ActorRotation := a, CameraRotation := c } := by
  unfold TurnFrame.levelUp
  split_ifs
  · exact ⟨_, _, rfl⟩
  · exact ⟨f.Pawn.ActorRotation, f.Pawn.CameraRotation, rfl⟩

theorem TurnFrame.level_rotation_only (f : TurnFrame) (Val : ℚ) :
    ∃ a c : FRotator,
      (f.level Val).Pawn = { f.Pawn with ActorRotation := a, CameraRotation := c } := by
  unfold TurnFrame.level
  split_ifs
  · obtain ⟨a1, c1, h1⟩ := f.levelDown_rotation_only
    obtain ⟨a2, c2, h2⟩ := f.levelDown.levelUp_rotation_only
    exact ⟨a2, c2, by rw [h2, h1]⟩
  · exact ⟨f.Pawn.ActorRotation, f.Pawn.CameraRotation, rfl⟩

/-- A turn poll changes nothing but the actor's rotation and the camera's rotation. -/
theorem RightRotationInput_rotation_only (s : AWarPlaneGamePawn) (Val : ℚ) :
    ∃ a c : FRotator,
      s.RightRotationInput Val = { s with ActorRotation := a, CameraRotation := c } := by
  have hdef : s.RightRotationInput Val
      = ((((TurnFrame.mk s s.ActorRotation s.CameraRotation).right Val).left Val).level
          Val).Pawn := rfl
  obtain ⟨a1, c1, h1⟩ := (TurnFrame.mk s s.ActorRotation s.CameraRotation).right_rotation_only Val
  obtain ⟨a2, c2, h2⟩ :=
    ((TurnFrame.mk s s.ActorRotation s.CameraRotation).right Val).left_rotation_only Val
  obtain ⟨a3, c3, h3⟩ :=
    (((TurnFrame.mk s s.ActorRotation s.CameraRotation).right Val).left Val).level_rotation_only
      Val
  exact ⟨a3, c3, by rw [hdef, h3, h2, h1]⟩

theorem EngineBoostTimer_tunables (s : AWarPlaneGamePawn) :
    s.EngineBoostTimer.ChangeValue = s.ChangeValue
    ∧ s.EngineBoostTimer.MaxSpeed = s.MaxSpeed
    ∧ s.EngineBoostTimer.MinSpeed = s.MinSpeed := by
  simp only [AWarPlaneGamePawn.EngineBoostTimer]
  split_ifs <;> exact ⟨rfl, rfl, rfl⟩

theorem EngineOverHeat_iterate_tunables (n : ℕ) (s : AWarPlaneGamePawn) :
    (AWarPlaneGamePawn.EngineOverHeat^[n] s).ChangeValue = s.ChangeValue
    ∧ (AWarPlaneGamePawn.EngineOverHeat^[n] s).MaxSpeed = s.MaxSpeed
    ∧ (AWarPlaneGamePawn.EngineOverHeat^[n] s).MinSpeed = s.MinSpeed := by
  induction n with
  | zero => exact ⟨rfl, rfl, rfl⟩
  | succ m ih =>
    obtain ⟨h1, h2, h3⟩ := ih
    rw [Function.iterate_succ_apply']
    exact ⟨h1, h2, h3⟩

/-- One event with digital speed axes keeps the pawn on the lattice. -/
theorem step_OnLattice (s : AWarPlaneGamePawn) (e : Event) (hs : s.OnLattice)
    (he : e.IsDigital) : (s.step e).OnLattice := by
  obtain ⟨hcv, hmax, hmin, hlo, hhi, hdvd⟩ := hs
  have hcvk : s.ChangeValue = ((40 : ℤ) : ℚ) := by rw [hcv]; norm_num
  cases e with
  | EngineBoost v =>
    obtain ⟨f1, f2, f3, _, _⟩ := EngineBoostInput_frame s v
    refine ⟨by rw [← hcv]; exact f1, by rw [← hmax]; exact f2, by rw [← hmin]; exact f3, ?_⟩
    show 6000 ≤ (s.EngineBoostInput v).CurrentForwardSpeed
      ∧ (s.EngineBoostInput v).CurrentForwardSpeed ≤ 24000
      ∧ 40 ∣ (s.EngineBoostInput v).CurrentForwardSpeed
    by_cases hg : v ≠ 0 ∧ s.EngineBoostTime > 1 ∧ s.OverHeating = false
    · have hv1 : v = 1 := by
        rcases he with h | h
        · exact absurd h hg.1
        · exact h
      subst hv1
      by_cases hlt : (s.CurrentForwardSpeed : ℚ) < s.MaxSpeed
      · rw [EngineBoostInput_one_step s 40 hcvk hg.2.1 hg.2.2 hlt]
        have hlt' : s.CurrentForwardSpeed < 24000 := by
          rw [hmax] at hlt
          exact_mod_cast hlt
        omega
      · rw [EngineBoostInput_at_max s 1 one_ne_zero hg.2.1 hg.2.2 (not_lt.mp hlt), hmax]
        have h24 : truncQ 24000 = 24000 := truncQ_intCast 24000
        rw [h24]
        omega
    · obtain ⟨r1, r2⟩ := EngineBoostInput_rest s v 40 hg hcvk
      by_cases h : s.CurrentForwardSpeed > 10000
      · rw [r1 h]; omega
      · rw [r2 h]; exact ⟨hlo, hhi, hdvd⟩
  | SlowDown v =>
    obtain ⟨f1, f2, f3, _, _, _⟩ := SlowDownInput_frame s v
    refine ⟨by rw [← hcv]; exact f1, by rw [← hmax]; exact f2, by rw [← hmin]; exact f3, ?_⟩
    show 6000 ≤ (s.SlowDownInput v).CurrentForwardSpeed
      ∧ (s.SlowDownInput v).CurrentForwardSpeed ≤ 24000
      ∧ 40 ∣ (s.SlowDownInput v).CurrentForwardSpeed
    rcases he with h | h
    · subst h
      obtain ⟨r1, r2⟩ := SlowDownInput_rest s 40 hcvk
      by_cases h : s.CurrentForwardSpeed < 10000
      · rw [r1 h]; omega
      · rw [r2 h]; exact ⟨hlo, hhi, hdvd⟩
    · subst h
      by_cases hgt : (s.CurrentForwardSpeed : ℚ) > s.MinSpeed
      · rw [SlowDownInput_one_step s 40 hcvk hgt]
        have hgt' : 6000 < s.CurrentForwardSpeed := by
          rw [hmin] at hgt
          exact_mod_cast hgt
        omega
      · rw [SlowDownInput_at_min s 1 one_ne_zero (not_lt.mp hgt), hmin]
        have h6 : truncQ 6000 = 6000 := truncQ_intCast 6000
        rw [h6]
        omega
  | RightRotation v =>
    obtain ⟨a, c, h⟩ := RightRotationInput_rotation_only s v
    show (s.RightRotationInput v).OnLattice
    rw [h]
    exact ⟨hcv, hmax, hmin, hlo, hhi, hdvd⟩
  | BoostTimer =>
    obtain ⟨t1, t2, t3⟩ := EngineBoostTimer_tunables s
    obtain ⟨t4, _⟩ := EngineBoostTimer_frame s
    exact ⟨by rw [← hcv]; exact t1, by rw [← hmax]; exact t2, by rw [← hmin]; exact t3,
      by rw [← t4] at hlo; exact hlo, by rw [← t4] at hhi; exact hhi,
      by rw [← t4] at hdvd; exact hdvd⟩
  | OverHeatTimer =>
    obtain ⟨t1, t2, t3⟩ := EngineOverHeat_iterate_tunables
      (s.Timer2.Elapse s.Timer2.Remaining).2 s
    obtain ⟨_, _, t4, _⟩ := CooldownElapse_frame s s.Timer2.Remaining
    refine ⟨by rw [← hcv]; exact t1, by rw [← hmax]; exact t2, by rw [← hmin]; exact t3, ?_⟩
    show 6000 ≤ (s.CooldownElapse s.Timer2.Remaining).1.CurrentForwardSpeed
      ∧ (s.CooldownElapse s.Timer2.Remaining).1.CurrentForwardSpeed ≤ 24000
      ∧ 40 ∣ (s.CooldownElapse s.Timer2.Remaining).1.CurrentForwardSpeed
    rw [t4]
    exact ⟨hlo, hhi, hdvd⟩

theorem run_OnLattice (es : List Event) (s : AWarPlaneGamePawn) (hs : s.OnLattice)
    (hd : ∀ e ∈ es, e.IsDigital) : (s.run es).OnLattice := by
  induction es generalizing s with
  | nil => exact hs
  | cons e es ih =>
    exact ih (s.step e) (step_OnLattice s e hs (hd e (List.mem_cons_self e es)))
      (fun e' he' => hd e' (List.mem_cons_of_mem e he'))

theorem ctor_OnLattice (r c : FRotator) : (AWarPlaneGamePawn.ctor r c).OnLattice :=
  ⟨rfl, rfl, rfl, by rw [ctor_speed]; norm_num, by rw [ctor_speed]; norm_num,
    by rw [ctor_speed]; norm_num⟩

/-- C15. With the constructor's tunables and every boost and slow-down value `0` or `1`,
every state reached from the constructed pawn by any sequence of events satisfies
`6000 ≤ currentForwardSpeed ≤ 24000`, and `currentForwardSpeed` is a multiple of `40` (it
is `10000 + 40k` for a whole `k`). -/
theorem speed_lattice_invariant (r c : FRotator) (es : List Event)
    (hd : ∀ e ∈ es, e.IsDigital) :
    6000 ≤ ((AWarPlaneGamePawn.ctor r c).run es).CurrentForwardSpeed
    ∧ ((AWarPlaneGamePawn.ctor r c).run es).CurrentForwardSpeed ≤ 24000
    ∧ 40 ∣ ((AWarPlaneGamePawn.ctor r c).run es).CurrentForwardSpeed
    ∧ ∃ k : ℤ, ((AWarPlaneGamePawn.ctor r c).run es).CurrentForwardSpeed = 10000 + 40 * k := by
  obtain ⟨_, _, _, hlo, hhi, hdvd⟩ := run_OnLattice es _ (ctor_OnLattice r c) hd
  refine ⟨hlo, hhi, hdvd, ?_⟩
  obtain ⟨a, ha⟩ := hdvd
  exact ⟨a - 250, by rw [ha]; ring⟩

/-- `speed_lattice_invariant` on the constructed pawn after `BeginPlay`, two boost polls, a
timer run and a slow-down poll. -/
theorem speed_lattice_invariant_witness :
    6000 ≤ (spawned.run [Event.BoostTimer, Event.EngineBoost 1, Event.EngineBoost 1,
        Event.BoostTimer, Event.SlowDown 1]).CurrentForwardSpeed
    ∧ (spawned.run [Event.BoostTimer, Event.EngineBoost 1, Event.EngineBoost 1,
        Event.BoostTimer, Event.SlowDown 1]).CurrentForwardSpeed ≤ 24000
    ∧ 40 ∣ (spawned.run [Event.BoostTimer, Event.EngineBoost 1, Event.EngineBoost 1,
        Event.BoostTimer, Event.SlowDown 1]).CurrentForwardSpeed := by
  have h := speed_lattice_invariant FRotator.Zero FRotator.Zero
    [Event.BoostTimer, Event.EngineBoost 1, Event.EngineBoost 1, Event.BoostTimer,
      Event.SlowDown 1]
    (by
      intro e he
      simp only [List.mem_cons, List.mem_singleton, List.not_mem_nil, or_false] at he
      rcases he with h | h | h | h | h <;> subst h <;> simp [Event.IsDigital])
  exact ⟨h.1, h.2.1, h.2.2.1⟩

/-! ## C16: idle frames -/

end WarPlane
